import Mathlib

/-!
# gdrive_mover: folder mirroring, file transfer and folder transfer

A shallow embedding of `list_files.go`.

* A remote account is a `Service σ`: one transition function per API request
  that the code issues, over an arbitrary remote state `σ`.  Quantifying over
  `σ` and over the functions is quantifying over every remote behaviour.
* An API result `(*T, error)` is a `Ret T`: a pointer that may be nil and an
  error that may be nil.  Reading a field through a nil pointer panics.
* A goroutine body is a function on a `Proc σ`: the remote state, the trace of
  what the process has done so far (requests issued and events sent on the
  goroutine's own channel, in program order) and the number of receives that
  the consumer of the channel will still perform (`none`: the consumer
  receives until the goroutine is finished).  The channel is unbuffered: a send
  that no receive will ever match blocks the goroutine for good.
* `<-child(...)` in `TransferFolder` starts a goroutine and receives once from
  its channel: the child runs with a credit of one send, and its requests are
  steps of the same process.  A panic or `log.Fatalf` ends the process.
* Recursion over the ancestors of a folder and over sub-folders is bounded by a
  fuel argument; `Exit.outOfFuel` marks a run that the fuel cut short.
* `float32` values are not evaluated: a progress value is either a constant or
  the pair of operands of the division that the callback performs.
-/

namespace GdriveMover

/-- A Go `error` value that is not nil. -/
abbrev GoError := String

/-- The `drive.User` fields that the code reads. -/
structure User where
  emailAddress : String := ""
deriving DecidableEq, Repr

/-- The `drive.File` fields that the code reads or writes. -/
structure File where
  id : String := ""
  name : String := ""
  mimeType : String := ""
  size : Int := 0
  quotaBytesUsed : Int := 0
  parents : List String := []
  owners : List User := []
  md5Checksum : String := ""
  originalFilename : String := ""
deriving DecidableEq, Repr

/-- The `drive.FileList` fields that the code reads. -/
structure FileList where
  files : List File := []
  nextPageToken : String := ""
deriving DecidableEq, Repr

/-- The `drive.Permission` fields that `share` sets. -/
structure Permission where
  type : String := ""
  role : String := ""
  emailAddress : String := ""
deriving DecidableEq, Repr

/-- A Go result pair `(*T, error)`. -/
structure Ret (α : Type) where
  val : Option α
  err : Option GoError
deriving DecidableEq, Repr

/-- A `float32` progress value: a constant, or `float32(num)/float32(den)`. -/
inductive Progress where
  | value (v : Int)
  | ratio (num den : Int)
deriving DecidableEq, Repr

/-- The struct `ProgressConstruct`. -/
structure ProgressConstruct where
  progress : Progress := .value 0
  fileId : String := ""
  fileName : String := ""
  destFileId : String := ""
  destFileName : String := ""
deriving DecidableEq, Repr

/-- The struct `Result[ProgressConstruct]`. -/
structure ProgressResult where
  code : ProgressConstruct := {}
  err : Option GoError := none
  done : Bool := false
deriving DecidableEq, Repr

/-- A request sent to a remote account. -/
inductive Request where
  | filesGet (id fields : String)
  | filesList (q fields pageToken : String)
  | filesDownload (id : String)
  | filesCreate (file : File)
  | filesCreateMedia (file : File) (contentLength : Int)
  | filesDelete (id : String)
  | permissionsCreate (fileId : String) (perm : Permission)
deriving DecidableEq, Repr

/-- One observable step of a process: a request to the account called
`account`, or an event sent on the goroutine's channel. -/
inductive Step where
  | request (account : String) (r : Request)
  | send (e : ProgressResult)
deriving DecidableEq, Repr

/-- The requests of `drive.Service` that the code issues, as transitions of a
remote state.  `filesCreateMedia` is a create with a media body: the answer
holds the `(current, total)` pairs that the upload driver passes to the
progress updater, in order, and the result of `Do`. -/
structure Service (σ : Type) where
  filesGet : String → String → σ → Ret File × σ
  filesList : String → String → String → σ → Ret FileList × σ
  filesDownload : String → σ → Ret Unit × σ
  filesCreate : File → σ → Ret File × σ
  filesCreateMedia : File → Int → σ → (List (Int × Int) × Ret File) × σ
  filesDelete : String → σ → Option GoError × σ
  permissionsCreate : String → Permission → σ → Ret Permission × σ

/-- The struct `GDrive`. -/
structure GDrive (σ : Type) where
  name : String
  srv : Service σ

/-- How a function or goroutine body stops other than by returning a value. -/
inductive Exit where
  | closed
  | returned
  | blocked
  | panicked
  | fatal
  | outOfFuel
deriving DecidableEq, Repr

/-- The state of a running process. -/
structure Proc (σ : Type) where
  remote : σ
  trace : List Step := []
  credit : Option Nat := none
deriving DecidableEq

deriving instance DecidableEq for Except

/-- Record a request and the remote state it leaves. -/
def Proc.request {σ : Type} (p : Proc σ) (account : String) (r : Request) (s : σ) : Proc σ :=
  { p with remote := s, trace := p.trace ++ [Step.request account r] }

/-- Whether a send on the goroutine's channel will be received. -/
def Proc.canSend {σ : Type} (p : Proc σ) : Bool :=
  match p.credit with
  | some 0 => false
  | _ => true

/-- Record a send that is received. -/
def Proc.send {σ : Type} (p : Proc σ) (e : ProgressResult) : Proc σ :=
  { p with trace := p.trace ++ [Step.send e], credit := p.credit.map (fun n => n - 1) }

/-- The events among a list of steps, in order. -/
def eventsOf : List Step → List ProgressResult
  | [] => []
  | Step.send e :: t => e :: eventsOf t
  | Step.request _ _ :: t => eventsOf t

/-- The requests among a list of steps, in order. -/
def requestsOf : List Step → List (String × Request)
  | [] => []
  | Step.send _ :: t => requestsOf t
  | Step.request a r :: t => (a, r) :: requestsOf t

/-- An `int64` product or sum, wrapped to 64 bits. -/
def wrapInt64 (x : Int) : Int :=
  (x + 2 ^ 63) % 2 ^ 64 - 2 ^ 63

def fileFields : String :=
  "files(id, name, mimeType,size,quotaBytesUsed,parents,owners,md5Checksum,originalFilename,createdTime,modifiedTime)"

def fileFieldList : String :=
  "nextPageToken, " ++ fileFields

def folderMimeType : String := "application/vnd.google-apps.folder"

/-- `gd.GetFile(id)`. -/
def GetFile {σ : Type} (gd : GDrive σ) (id : String) (p : Proc σ) : Ret File × Proc σ :=
  let a := gd.srv.filesGet id "*" p.remote
  (a.1, p.request gd.name (Request.filesGet id "*") a.2)

/-- `ForCode(status)`. -/
def ForCode (status : Int) : ProgressConstruct :=
  { progress := Progress.value status }

/-- `ForProgress(progress, newFile, dlFile)`; `dlFile` may be nil. -/
def ForProgress (progress : Progress) (newFile : File) (dlFile : Option File) : ProgressConstruct :=
  match dlFile with
  | none => { progress := progress, fileId := newFile.id, fileName := newFile.name }
  | some d =>
    { progress := progress, fileId := newFile.id, fileName := newFile.name,
      destFileId := d.id, destFileName := d.name }

/-- The loop `for _, pid := range parents { p, err := createParentFolder(pid);
if err != nil { stop } else if p != nil { append p.Id } }`, which
`createParentFolder` and `Transfer` both run.  It yields the error that
stopped it, if any, and the ids collected so far. -/
def collectParents {σ : Type}
    (resolve : String → Proc σ → Except Exit (Ret File) × Proc σ) :
    List String → List String → Proc σ → Except Exit (Option GoError × List String) × Proc σ
  | [], acc, p => (Except.ok (none, acc), p)
  | pid :: rest, acc, p =>
    match resolve pid p with
    | (Except.error x, p1) => (Except.error x, p1)
    | (Except.ok r, p1) =>
      match r.err with
      | some e => (Except.ok (some e, acc), p1)
      | none =>
        match r.val with
        | some f => collectParents resolve rest (acc ++ [f.id]) p1
        | none => collectParents resolve rest acc p1

/-- The query that `createParentFolder` builds with `fmt.Sprintf`. -/
def probeQuery (name : String) (parents : List String) : String :=
  let q := "name='" ++ name ++ "' and mimeType='application/vnd.google-apps.folder'"
  match parents with
  | [] => q
  | first :: _ => q ++ " and '" ++ first ++ "' in parents"

/-- Lines 129-148 of `createParentFolder`: look for a folder of the given name
under the first of the resolved parents and return the first match; create
the folder under the resolved parents when the probe fails or finds
nothing. -/
def findOrCreateFolder {σ : Type} (targetGD : GDrive σ) (name : String) (parents : List String)
    (p : Proc σ) : Except Exit (Ret File) × Proc σ :=
  let q := probeQuery name parents
  let l := targetGD.srv.filesList q "files(id, name)" "" p.remote
  let p1 := p.request targetGD.name (Request.filesList q "files(id, name)" "") l.2
  let found : Except Exit (Option File) :=
    match l.1.err with
    | some _ => Except.ok none
    | none =>
      match l.1.val with
      | none => Except.error Exit.panicked
      | some r => Except.ok r.files.head?
  match found with
  | Except.error x => (Except.error x, p1)
  | Except.ok (some first) => (Except.ok ⟨some first, none⟩, p1)
  | Except.ok none =>
    let folder : File := { name := name, mimeType := folderMimeType, parents := parents }
    let c := targetGD.srv.filesCreate folder p1.remote
    (Except.ok c.1, p1.request targetGD.name (Request.filesCreate folder) c.2)

/-- `gd.createParentFolder(pid, targetGD)`.  The fuel bounds the depth of the
recursion over the ancestors. -/
def createParentFolder {σ : Type} (gd targetGD : GDrive σ) :
    Nat → String → Proc σ → Except Exit (Ret File) × Proc σ
  | 0, _, p => (Except.error Exit.outOfFuel, p)
  | fuel + 1, pid, p =>
    let g := GetFile gd pid p
    match g.1.val with
    | none => (Except.error Exit.panicked, g.2)
    | some parent =>
      if parent.name = "My Drive" then (Except.ok ⟨none, none⟩, g.2)
      else
        match g.1.err with
        | some _ => (Except.error Exit.fatal, g.2)
        | none =>
          match collectParents (createParentFolder gd targetGD fuel) parent.parents [] g.2 with
          | (Except.error x, p2) => (Except.error x, p2)
          | (Except.ok (some e, _), p2) => (Except.ok ⟨none, some e⟩, p2)
          | (Except.ok (none, parents), p2) => findOrCreateFolder targetGD parent.name parents p2

/-- `gd.GetFilesInFolder(folder)`.  The result is a slice and an error: a nil
slice is the empty list. -/
def GetFilesInFolder {σ : Type} (gd : GDrive σ) (folder : File) (p : Proc σ) :
    Except Exit (List File × Option GoError) × Proc σ :=
  let q := "'" ++ folder.id ++ "' in parents"
  let l := gd.srv.filesList q fileFields "" p.remote
  let p1 := p.request gd.name (Request.filesList q fileFields "") l.2
  match l.1.err with
  | some e => (Except.ok ([], some e), p1)
  | none =>
    match l.1.val with
    | none => (Except.error Exit.panicked, p1)
    | some r => (Except.ok (r.files, none), p1)

/-- `share(newFile, dlFile, targetGD)`; `dlFile` may be nil. -/
def share {σ : Type} (newFile : File) (dlFile : Option File) (targetGD : GDrive σ)
    (p : Proc σ) : Except Exit Unit × Proc σ :=
  match newFile.owners with
  | [] => (Except.error Exit.panicked, p)
  | owner :: _ =>
    let perm : Permission :=
      { type := "user", role := "reader", emailAddress := owner.emailAddress }
    match dlFile with
    | none => (Except.error Exit.panicked, p)
    | some d =>
      let a := targetGD.srv.permissionsCreate d.id perm p.remote
      let p1 := p.request targetGD.name (Request.permissionsCreate d.id perm) a.2
      match a.1.err with
      | some _ => (Except.ok (), p1)
      | none =>
        match a.1.val with
        | none => (Except.error Exit.panicked, p1)
        | some _ => (Except.ok (), p1)

/-- `progress <- e` followed by the rest of the body: the goroutine goes on
only if the send is received. -/
def sendThen {σ : Type} (p : Proc σ) (e : ProgressResult)
    (rest : Proc σ → Exit × Proc σ) : Exit × Proc σ :=
  if p.canSend then rest (p.send e) else (Exit.blocked, p)

/-- The closure given to `req.ProgressUpdater` in `Transfer`, run on the
`(current, total)` pairs of one upload in turn.  The flag is false when a send
blocked. -/
def progressUpdater {σ : Type} (newFile : File) : List (Int × Int) → Proc σ → Bool × Proc σ
  | [], p => (true, p)
  | (current, total) :: rest, p =>
    let total := if total = 0 then newFile.size else total
    if total > 0 ∧ current > 0 then
      if p.canSend then
        progressUpdater newFile rest
          (p.send { code := ForProgress (Progress.ratio (wrapInt64 (current * 100)) total) newFile none,
                    err := none, done := false })
      else (false, p)
    else progressUpdater newFile rest p

/-- The error that `Transfer` builds when the checksums differ. -/
def mismatchError (dlFile : File) : GoError :=
  "File " ++ dlFile.name ++ " uploaded successfully but the checksums do not match\n"

/-- Lines 275-286 of `Transfer`: the value of `dlCheckSum` after the optional
fetch of the uploaded file's checksum. -/
def uploadedChecksum {σ : Type} (targetGD : GDrive σ) (newFile dlFile : File) (p : Proc σ) :
    Except Exit String × Proc σ :=
  if dlFile.md5Checksum = "" then
    let a := targetGD.srv.filesGet dlFile.id "md5Checksum" p.remote
    let p1 := p.request targetGD.name (Request.filesGet dlFile.id "md5Checksum") a.2
    match a.1.err with
    | some e =>
      if p1.canSend then
        (Except.ok dlFile.md5Checksum,
          p1.send { code := ForProgress (Progress.value 100) newFile (some dlFile),
                    err := some e, done := true })
      else (Except.error Exit.blocked, p1)
    | none =>
      match a.1.val with
      | none => (Except.error Exit.panicked, p1)
      | some uploadedFile => (Except.ok uploadedFile.md5Checksum, p1)
  else (Except.ok dlFile.md5Checksum, p)

/-- Lines 288-300 of `Transfer`: the comparison of the checksums and what
follows it. -/
def compareAndFinish {σ : Type} (gd targetGD : GDrive σ) (file newFile dlFile : File)
    (shareBack : Bool) (dlCheckSum : String) (p : Proc σ) : Exit × Proc σ :=
  if dlCheckSum ≠ newFile.md5Checksum then
    sendThen p { code := ForProgress (Progress.value 100) newFile (some dlFile),
                 err := some (mismatchError dlFile), done := true }
      (fun p1 => (Exit.closed, p1))
  else
    sendThen p { code := ForProgress (Progress.value 100) newFile (some dlFile),
                 err := none, done := true }
      (fun p1 =>
        let d := gd.srv.filesDelete file.id p1.remote
        let p2 := p1.request gd.name (Request.filesDelete file.id) d.2
        match d.1 with
        | some _ => (Exit.closed, p2)
        | none =>
          if shareBack then
            match share newFile (some dlFile) targetGD p2 with
            | (Except.error x, p3) => (x, p3)
            | (Except.ok _, p3) => (Exit.closed, p3)
          else (Exit.closed, p2))

/-- The goroutine body of `gd.Transfer(file, targetGD, shareBack)`.  The fuel
is the fuel of `createParentFolder`.  The deferred `close(progress)` is
registered on the last line of the body, so a body that returns earlier leaves
the channel open. -/
def Transfer {σ : Type} (gd targetGD : GDrive σ) (fuel : Nat) (file : File)
    (shareBack : Bool) (p : Proc σ) : Exit × Proc σ :=
  let g := gd.srv.filesGet file.id "*" p.remote
  let p1 := p.request gd.name (Request.filesGet file.id "*") g.2
  match g.1.err with
  | some e =>
    sendThen p1 { code := ForCode (-2), err := some e, done := true }
      (fun p2 => (Exit.returned, p2))
  | none =>
    match g.1.val with
    | none => (Exit.panicked, p1)
    | some newFile =>
      match collectParents (createParentFolder gd targetGD fuel) newFile.parents [] p1 with
      | (Except.error x, p2) => (x, p2)
      | (Except.ok (some e, _), p2) =>
        sendThen p2 { code := ForCode (-2), err := some e, done := true }
          (fun p3 => (Exit.returned, p3))
      | (Except.ok (none, parents), p2) =>
        let d := gd.srv.filesDownload file.id p2.remote
        let p3 := p2.request gd.name (Request.filesDownload file.id) d.2
        match d.1.err with
        | some e =>
          sendThen p3 { code := ForCode (-2), err := some e, done := true }
            (fun p4 => (Exit.returned, p4))
        | none =>
          match d.1.val with
          | none => (Exit.panicked, p3)
          | some _ =>
            let upload : File :=
              { name := newFile.name, originalFilename := newFile.originalFilename,
                parents := parents }
            let u := targetGD.srv.filesCreateMedia upload newFile.size p3.remote
            let p4 := p3.request targetGD.name (Request.filesCreateMedia upload newFile.size) u.2
            match progressUpdater newFile u.1.1 p4 with
            | (false, p5) => (Exit.blocked, p5)
            | (true, p5) =>
              match u.1.2.err with
              | some e =>
                sendThen p5 { code := ForCode 0, err := some e, done := true }
                  (fun p6 => (Exit.closed, p6))
              | none =>
                match u.1.2.val with
                | none => (Exit.panicked, p5)
                | some dlFile =>
                  match uploadedChecksum targetGD newFile dlFile p5 with
                  | (Except.error x, p6) => (x, p6)
                  | (Except.ok dlCheckSum, p6) =>
                    compareAndFinish gd targetGD file newFile dlFile shareBack dlCheckSum p6

/-- The steps of a child goroutine that are steps of the whole process: its
requests.  Its sends go to its own channel. -/
def requestSteps : List Step → List Step
  | [] => []
  | Step.request a r :: t => Step.request a r :: requestSteps t
  | Step.send _ :: t => requestSteps t

/-- The expression `<-child(...)`: start the goroutine `child` on a new
channel and receive once from that channel.  Nothing receives from the channel
again, so the child runs with a credit of one send; it is run until it
finishes or blocks before the parent goes on.  A panic or `log.Fatalf` in the
child ends the process.  A receive from a closed channel on which nothing was
sent yields the zero value; a receive from an open channel on which nothing is
ever sent blocks. -/
def receiveOne {σ : Type} (child : Proc σ → Exit × Proc σ) (p : Proc σ) :
    Except Exit ProgressResult × Proc σ :=
  let r := child { remote := p.remote, trace := [], credit := some 1 }
  let p1 : Proc σ := { p with remote := r.2.remote, trace := p.trace ++ requestSteps r.2.trace }
  match r.1 with
  | Exit.panicked => (Except.error Exit.panicked, p1)
  | Exit.fatal => (Except.error Exit.fatal, p1)
  | Exit.outOfFuel => (Except.error Exit.outOfFuel, p1)
  | x =>
    match eventsOf r.2.trace with
    | e :: _ => (Except.ok e, p1)
    | [] =>
      match x with
      | Exit.closed => (Except.ok {}, p1)
      | _ => (Except.error Exit.blocked, p1)

/-- The loop over the children in `TransferFolder`: for each child,
`progress <- <-gd.TransferFolder(child, targetGD, false)` when it is a folder
and `progress <- <-gd.Transfer(child, targetGD, false)` otherwise. -/
def relayChildren {σ : Type} (transferFolder transfer : File → Proc σ → Exit × Proc σ) :
    List File → Proc σ → Except Exit Unit × Proc σ
  | [], p => (Except.ok (), p)
  | child :: rest, p =>
    let body := if child.mimeType = folderMimeType then transferFolder child else transfer child
    match receiveOne body p with
    | (Except.error x, p1) => (Except.error x, p1)
    | (Except.ok e, p1) =>
      if p1.canSend then relayChildren transferFolder transfer rest (p1.send e)
      else (Except.error Exit.blocked, p1)

/-- The goroutine body of `gd.TransferFolder(file, targetGD, shareBack)`.  The
fuel bounds the depth of the recursion over sub-folders and is the fuel of the
transfers of the children. -/
def TransferFolder {σ : Type} (gd targetGD : GDrive σ) :
    Nat → File → Bool → Proc σ → Exit × Proc σ
  | 0, _, _, p => (Exit.outOfFuel, p)
  | fuel + 1, file, shareBack, p =>
    match GetFilesInFolder gd file p with
    | (Except.error x, p1) => (x, p1)
    | (Except.ok (_, some e), p1) =>
      sendThen p1 { code := ForCode (-2), err := some e, done := true }
        (fun p2 => (Exit.returned, p2))
    | (Except.ok (files, none), p1) =>
      match relayChildren (fun f => TransferFolder gd targetGD fuel f false)
          (fun f => Transfer gd targetGD fuel f false) files p1 with
      | (Except.error x, p2) => (x, p2)
      | (Except.ok _, p2) =>
        sendThen p2 { code := ForCode 100, err := none, done := true }
          (fun p3 =>
            if shareBack then
              match share file none targetGD p3 with
              | (Except.error x, p4) => (x, p4)
              | (Except.ok _, p4) => (Exit.closed, p4)
            else (Exit.closed, p3))

/-! ## Auxiliary definitions: what the theorems speak about -/

/-- A step that the mirror resolver may take: a get, list or folder-create
request. -/
def Step.mirror : Step → Bool
  | Step.request _ (Request.filesGet _ _) => true
  | Step.request _ (Request.filesList _ _ _) => true
  | Step.request _ (Request.filesCreate _) => true
  | _ => false

/-- The destination checksum that `Transfer` compares exists and equals the
source checksum: the upload answer carries it, or the upload answer carries
none and the fetch of the uploaded file's metadata at the remote state `s`
succeeds and carries it. -/
def ChecksumsMatch {σ : Type} (targetGD : GDrive σ) (newFile dlFile : File) (s : σ) : Prop :=
  (dlFile.md5Checksum ≠ "" ∧ dlFile.md5Checksum = newFile.md5Checksum) ∨
    (dlFile.md5Checksum = "" ∧
      ∃ uploadedFile, (targetGD.srv.filesGet dlFile.id "md5Checksum" s).1 = ⟨some uploadedFile, none⟩ ∧
        uploadedFile.md5Checksum = newFile.md5Checksum)

/-- The remote state in which `Transfer` compares the checksums, given the
state `s` after the upload. -/
def stateAfterChecksum {σ : Type} (targetGD : GDrive σ) (dlFile : File) (s : σ) : σ :=
  if dlFile.md5Checksum = "" then (targetGD.srv.filesGet dlFile.id "md5Checksum" s).2 else s

/-- The terminal event of a successful transfer. -/
def successEvent (newFile dlFile : File) : ProgressResult :=
  { code := ForProgress (Progress.value 100) newFile (some dlFile), err := none, done := true }

/-- The process `q` is the process `p` after further steps of the mirror
resolver: the events sent and the credit of the channel are the same. -/
def Proc.Requested {σ : Type} (p q : Proc σ) : Prop :=
  q.credit = p.credit ∧ ∃ t, q.trace = p.trace ++ t ∧ t.all Step.mirror = true

/-- The create-permission request of `share`. -/
def shareRequest {σ : Type} (targetGD : GDrive σ) (dlFile : File) (owner : User) : Step :=
  Step.request targetGD.name (Request.permissionsCreate dlFile.id
    { type := "user", role := "reader", emailAddress := owner.emailAddress })

/-- One call of the resolver made for a parent of the file: the parent id,
the answer of the source to the get of that parent, and what the resolver
returned. -/
structure Resolution where
  pid : String
  source : Ret File
  result : Except Exit (Ret File)

/-- The source reports the folder as the account root: its name is
"My Drive". -/
def Resolution.isRoot (x : Resolution) : Bool :=
  match x.source.val with
  | some parent => parent.name = "My Drive"
  | none => false

/-- The id of the destination folder that the resolver returned, if any. -/
def Resolution.destId (x : Resolution) : Option String :=
  match x.result with
  | Except.ok r => r.val.map File.id
  | Except.error _ => none

/-- The resolver returned without an error. -/
def Resolution.succeeded (x : Resolution) : Bool :=
  match x.result with
  | Except.ok r => r.err.isNone
  | Except.error _ => false

/-- The calls `createParentFolder(pid, targetGD)` for the given parent ids,
one after the other. -/
def resolveEach {σ : Type} (gd targetGD : GDrive σ) (fuel : Nat) :
    List String → Proc σ → List Resolution
  | [], _ => []
  | pid :: rest, p =>
    { pid := pid, source := (GetFile gd pid p).1,
      result := (createParentFolder gd targetGD fuel pid p).1 } ::
      resolveEach gd targetGD fuel rest (createParentFolder gd targetGD fuel pid p).2

/-- A service that rejects every request and never changes its state. -/
def idleService (σ : Type) : Service σ :=
  { filesGet := fun _ _ s => (⟨none, some "unsupported"⟩, s)
    filesList := fun _ _ _ s => (⟨none, some "unsupported"⟩, s)
    filesDownload := fun _ s => (⟨none, some "unsupported"⟩, s)
    filesCreate := fun _ s => (⟨none, some "unsupported"⟩, s)
    filesCreateMedia := fun _ _ s => (([], ⟨none, some "unsupported"⟩), s)
    filesDelete := fun _ s => (some "unsupported", s)
    permissionsCreate := fun _ _ s => (⟨none, some "unsupported"⟩, s) }

/-- Whether the probe `q` of `createParentFolder` selects the folder `f`: `q`
asks for the name of `f`, with no parent or with a parent of `f`. -/
def folderMatches (q : String) (f : File) : Bool :=
  q = probeQuery f.name [] || f.parents.any (fun parent => q = probeQuery f.name [parent])

/-- The destination account as the list of the folders it holds, oldest
first.  A list request answers with the folders that the probe selects; a
create adds the folder, under the id `newId` chooses, and answers with it.  No
request fails. -/
def folderStore (newId : List File → File → String) : GDrive (List File) :=
  { name := "target"
    srv :=
      { idleService (List File) with
        filesList := fun q _ _ d => (⟨some { files := d.filter (folderMatches q) }, none⟩, d)
        filesCreate := fun f d =>
          (⟨some { f with id := newId d f }, none⟩, d ++ [{ f with id := newId d f }]) } }

/-- The source account as seen by the resolver: a get answers with the
metadata `metadata id` and changes nothing. -/
def folderSource (metadata : String → File) : GDrive (List File) :=
  { name := "source"
    srv := { idleService (List File) with filesGet := fun id _ d => (⟨some (metadata id), none⟩, d) } }

/-- The pair that identifies a mirrored folder: its name and the first of its
parents. -/
def folderKey (f : File) : String × Option String :=
  (f.name, f.parents.head?)

/-- Each folder of the second list, in the order of creation, is selected by
no probe for it among the folders before it. -/
def createdFresh : List File → List File → Bool
  | _, [] => true
  | d, c :: rest =>
    (d.filter (folderMatches (probeQuery c.name c.parents))).isEmpty && createdFresh (d ++ [c]) rest

/-- The step is a folder-create request. -/
def Step.isCreate : Step → Bool
  | Step.request _ (Request.filesCreate _) => true
  | _ => false

/-- None of the steps is a folder-create request. -/
def noCreate (t : List Step) : Bool :=
  t.all (fun x => !x.isCreate)

/-- A step of the resolver over the folder store is settled: a run that
returns a value only adds folders that no probe for them selected before, and
a later run from any state that holds further folders returns the same value,
changes nothing and creates nothing. -/
def Settled {α : Type} (f : Proc (List File) → Except Exit α × Proc (List File)) : Prop :=
  ∀ p r, (f p).1 = Except.ok r →
    (∃ e, (f p).2.remote = p.remote ++ e ∧ createdFresh p.remote e = true) ∧
      ∀ q later, q.remote = (f p).2.remote ++ later →
        (f q).1 = Except.ok r ∧ (f q).2.remote = q.remote ∧
          ∃ t, (f q).2.trace = q.trace ++ t ∧ noCreate t = true

/-- Run `f`, then `g` on the value of `f`. -/
def andThen {σ α β : Type} (f : Proc σ → Except Exit α × Proc σ)
    (g : α → Proc σ → Except Exit β × Proc σ) (p : Proc σ) : Except Exit β × Proc σ :=
  match f p with
  | (Except.error x, p1) => (Except.error x, p1)
  | (Except.ok a, p1) => g a p1

/-- The destination account as the list of the folders it holds, newest
first: as `folderStore`, but a create puts the folder in front, so that a list
request answers with the newest match first. -/
def folderStack (newId : List File → File → String) : GDrive (List File) :=
  { name := "target"
    srv :=
      { idleService (List File) with
        filesList := fun q _ _ d => (⟨some { files := d.filter (folderMatches q) }, none⟩, d)
        filesCreate := fun f d =>
          (⟨some { f with id := newId d f }, none⟩, { f with id := newId d f } :: d) } }

/-! ## Concrete remotes used to evaluate the code -/

/-- A remote without state that answers every request with success: every
file has the given checksum and owners and no parents, a listing is given by
`children`, an upload reports no progress and returns the file `uploaded`. -/
def plainService (md5 : String) (owners : List User) (children : String → List File)
    (uploaded : File) : Service Unit :=
  { filesGet := fun id _ s =>
      (⟨some { id := id, name := id, md5Checksum := md5, owners := owners }, none⟩, s)
    filesList := fun q _ _ s => (⟨some { files := children q }, none⟩, s)
    filesDownload := fun _ s => (⟨some (), none⟩, s)
    filesCreate := fun f s => (⟨some f, none⟩, s)
    filesCreateMedia := fun _ _ s => (([], ⟨some uploaded, none⟩), s)
    filesDelete := fun _ s => (none, s)
    permissionsCreate := fun _ perm s => (⟨some perm, none⟩, s) }

/-- A source on which `report` is a file of size 0 with the parents `root`
and `docs`, `root` is the account root and every other id is a folder under
`root`. -/
def mirrorSource : GDrive Unit :=
  { name := "source"
    srv :=
      { plainService "" [] (fun _ => []) {} with
        filesGet := fun id _ s =>
          if id = "report" then
            (⟨some { id := "report", name := "report.pdf", parents := ["root", "docs"],
                     md5Checksum := "d41d", owners := [{ emailAddress := "owner@example.com" }] },
              none⟩, s)
          else if id = "root" then (⟨some { id := "root", name := "My Drive" }, none⟩, s)
          else (⟨some { id := id, name := id, mimeType := folderMimeType, parents := ["root"] }, none⟩, s) } }

/-- A destination that holds no folder, answers a folder create with the
folder `mirror` and an upload with two progress reports of unknown total and
the file `new`. -/
def mirrorTarget : GDrive Unit :=
  { name := "target"
    srv :=
      { plainService "" [] (fun _ => []) {} with
        filesCreate := fun f s => (⟨some { f with id := "mirror" }, none⟩, s)
        filesCreateMedia := fun f _ s =>
          (([(0, 0), (7, 0)], ⟨some { f with id := "new", md5Checksum := "d41d" }, none⟩), s) } }

/-- The source hierarchy `My Drive/docs/photos`. -/
def photosMetadata (id : String) : File :=
  if id = "photos" then { id := "photos", name := "photos", mimeType := folderMimeType, parents := ["docs"] }
  else if id = "docs" then { id := "docs", name := "docs", mimeType := folderMimeType, parents := ["root"] }
  else { id := "root", name := "My Drive", mimeType := folderMimeType }

/-- The mirror of `photos` in the destination. -/
def photosMirror : File :=
  { id := "m-photos", name := "photos", mimeType := folderMimeType, parents := ["m-docs"] }

/-- Destination ids derived from the folder name. -/
def mirrorId (_ : List File) (f : File) : String :=
  "m-" ++ f.name

/-- The source hierarchy `My Drive/backup/backup`: the folder `inner` and its
parent `outer` have the same name. -/
def backupMetadata (id : String) : File :=
  if id = "inner" then { id := "inner", name := "backup", mimeType := folderMimeType, parents := ["outer"] }
  else if id = "outer" then { id := "outer", name := "backup", mimeType := folderMimeType, parents := ["root"] }
  else { id := "root", name := "My Drive", mimeType := folderMimeType }

/-- Destination ids that count the folders held. -/
def countingId (d : List File) (_ : File) : String :=
  if d.length = 0 then "m0" else if d.length = 1 then "m1" else "m2"

/-- A destination whose upload answer carries no checksum and whose metadata
fetch fails. -/
def noChecksumTarget : GDrive Unit :=
  { name := "target"
    srv :=
      { plainService "" [] (fun _ => []) { id := "new", name := "report.pdf" } with
        filesGet := fun _ _ s => (⟨none, some "backend error"⟩, s) } }

/-- A source whose files have the given checksum. -/
def sourceWithChecksum (md5 : String) : GDrive Unit :=
  { name := "source", srv := plainService md5 [] (fun _ => []) {} }

def reportFile : File := { id := "report", name := "report.pdf" }

/-- The folder tree `top/{sub/{inner}, sibling}` of the source. -/
def treeChildren (q : String) : List File :=
  if q = "'top' in parents" then
    [{ id := "sub", name := "sub", mimeType := folderMimeType }, { id := "sibling", name := "sibling" }]
  else if q = "'sub' in parents" then [{ id := "inner", name := "inner" }]
  else []

def treeSource : GDrive Unit :=
  { name := "source", srv := plainService "c4ca" [] treeChildren {} }

def treeTarget : GDrive Unit :=
  { name := "target",
    srv := plainService "" [] (fun _ => []) { id := "new", name := "copy", md5Checksum := "c4ca" } }

def topFolder : File := { id := "top", name := "top", mimeType := folderMimeType }

def subFolder : File := { id := "sub", name := "sub", mimeType := folderMimeType }

def siblingFile : File := { id := "sibling", name := "sibling" }

/-- The synthetic event that ends a folder transfer. -/
def folderComplete : ProgressResult :=
  { code := ForCode 100, err := none, done := true }

/-- A source whose listing of a folder has two pages: the first holds
`a.txt` and a continuation token, the second holds `b.txt`. -/
def pagedSource : GDrive Unit :=
  { name := "source"
    srv :=
      { plainService "" [] (fun _ => []) {} with
        filesList := fun _ _ pageToken s =>
          if pageToken = "" then
            (⟨some { files := [{ id := "a", name := "a.txt" }], nextPageToken := "page2" }, none⟩, s)
          else
            (⟨some { files := [{ id := "b", name := "b.txt" }], nextPageToken := "" }, none⟩, s) } }

/-- A source on which the file `report` has the parent `folder` and the
metadata of `folder` cannot be fetched. -/
def brokenParentSource : GDrive Unit :=
  { name := "source"
    srv :=
      { plainService "" [] (fun _ => []) {} with
        filesGet := fun id _ s =>
          if id = "report" then (⟨some { id := "report", name := "report.pdf", parents := ["folder"] }, none⟩, s)
          else (⟨none, some "notFound"⟩, s) } }

def plainTarget : GDrive Unit :=
  { name := "target", srv := plainService "" [] (fun _ => []) { id := "new", name := "copy" } }

def ownedFolder : File :=
  { id := "album", name := "album", mimeType := folderMimeType,
    owners := [{ emailAddress := "owner@example.com" }] }

/-- A source whose files have one owner and whose delete fails. -/
def undeletableSource : GDrive Unit :=
  { name := "source"
    srv :=
      { plainService "c4ca" [{ emailAddress := "owner@example.com" }] (fun _ => []) {} with
        filesDelete := fun _ s => (some "forbidden", s) } }

/-- A destination that holds no folder and rejects every folder create. -/
def fullTarget : GDrive Unit :=
  { name := "target"
    srv :=
      { plainService "" [] (fun _ => []) {} with
        filesCreate := fun _ s => (⟨none, some "storageQuotaExceeded"⟩, s) } }

/-- The source of `mirrorSource` with a download that fails. -/
def unreadableSource : GDrive Unit :=
  { name := "source"
    srv := { mirrorSource.srv with filesDownload := fun _ s => (⟨none, some "forbidden"⟩, s) } }

/-- The destination of `mirrorTarget` with an upload that reports one step of
progress and then fails. -/
def brokenUploadTarget : GDrive Unit :=
  { name := "target"
    srv :=
      { mirrorTarget.srv with
        filesCreateMedia := fun _ _ s => (([(5, 10)], ⟨none, some "connection reset"⟩), s) } }

/-- A file that the source does not hold. -/
def missingFile : File := { id := "missing", name := "missing.txt" }

/-- The steps of `Transfer` on `report` over `mirrorSource` up to the end of
the parent resolution. -/
def reportResolution : List Step :=
  [Step.request "source" (Request.filesGet "report" "*"),
   Step.request "source" (Request.filesGet "root" "*"),
   Step.request "source" (Request.filesGet "docs" "*"),
   Step.request "source" (Request.filesGet "root" "*"),
   Step.request "target" (Request.filesList (probeQuery "docs" []) "files(id, name)" ""),
   Step.request "target" (Request.filesCreate { name := "docs", mimeType := folderMimeType })]

/-- The metadata of `report` on `mirrorSource`. -/
def reportMetadata : File :=
  { id := "report", name := "report.pdf", parents := ["root", "docs"], md5Checksum := "d41d",
    owners := [{ emailAddress := "owner@example.com" }] }

/-! ## Lemmas -/

theorem eventsOf_append (a b : List Step) : eventsOf (a ++ b) = eventsOf a ++ eventsOf b := by
  induction a with
  | nil => rfl
  | cons x t ih => cases x <;> simp [eventsOf, ih]

theorem eventsOf_mirror (t : List Step) (h : t.all Step.mirror = true) : eventsOf t = [] := by
  induction t with
  | nil => rfl
  | cons x t ih =>
    simp only [List.all_cons, Bool.and_eq_true] at h
    cases x with
    | request a r => simpa [eventsOf] using ih h.2
    | send e => simp [Step.mirror] at h

theorem Proc.Requested.refl {σ : Type} (p : Proc σ) : p.Requested p :=
  ⟨rfl, [], by simp, rfl⟩

theorem Proc.Requested.trans {σ : Type} {p q r : Proc σ} (h1 : p.Requested q)
    (h2 : q.Requested r) : p.Requested r := by
  obtain ⟨c1, t1, e1, v1⟩ := h1
  obtain ⟨c2, t2, e2, v2⟩ := h2
  exact ⟨c2.trans c1, t1 ++ t2, by rw [e2, e1, List.append_assoc], by
    rw [List.all_append, v1, v2]; rfl⟩

theorem Proc.Requested.step {σ : Type} (p : Proc σ) (a : String) (r : Request) (s : σ)
    (h : (Step.request a r).mirror = true) : p.Requested (p.request a r s) :=
  ⟨rfl, [Step.request a r], rfl, by simp [h]⟩

theorem findOrCreateFolder_requested {σ : Type} (targetGD : GDrive σ) (name : String)
    (parents : List String) (p : Proc σ) :
    p.Requested (findOrCreateFolder targetGD name parents p).2 := by
  unfold findOrCreateFolder
  simp only
  split
  · exact Proc.Requested.step _ _ _ _ (by rfl)
  · exact Proc.Requested.step _ _ _ _ (by rfl)
  · exact (Proc.Requested.step _ _ _ _ (by rfl)).trans (Proc.Requested.step _ _ _ _ (by rfl))

theorem collectParents_requested {σ : Type}
    (resolve : String → Proc σ → Except Exit (Ret File) × Proc σ)
    (h : ∀ pid p, Proc.Requested p (resolve pid p).2) (pids acc : List String) (p : Proc σ) :
    p.Requested (collectParents resolve pids acc p).2 := by
  induction pids generalizing acc p with
  | nil => exact Proc.Requested.refl p
  | cons pid rest ih =>
    have h1 := h pid p
    unfold collectParents
    rcases hr : resolve pid p with ⟨r, p1⟩
    rw [hr] at h1
    cases r with
    | error x => exact h1
    | ok r =>
      simp only
      split
      · exact h1
      · split
        · exact h1.trans (ih _ _)
        · exact h1.trans (ih _ _)

theorem createParentFolder_requested {σ : Type} (gd targetGD : GDrive σ) (fuel : Nat)
    (pid : String) (p : Proc σ) : p.Requested (createParentFolder gd targetGD fuel pid p).2 := by
  induction fuel generalizing pid p with
  | zero => exact Proc.Requested.refl p
  | succ n ih =>
    have hg : p.Requested (GetFile gd pid p).2 := Proc.Requested.step p _ (Request.filesGet pid "*") _ rfl
    unfold createParentFolder
    simp only
    split
    · exact hg
    · split
      · exact hg
      · split
        · exact hg
        · have hcp := collectParents_requested (createParentFolder gd targetGD n) ih
          split
          · next hc =>
            have h2 := congrArg Prod.snd hc
            simp only at h2
            rw [← h2]
            exact hg.trans (hcp _ _ _)
          · next hc =>
            have h2 := congrArg Prod.snd hc
            simp only at h2
            rw [← h2]
            exact hg.trans (hcp _ _ _)
          · next hc =>
            have h2 := congrArg Prod.snd hc
            simp only at h2
            rw [← h2]
            exact (hg.trans (hcp _ _ _)).trans (findOrCreateFolder_requested _ _ _ _)

theorem canSend_of_credit_none {σ : Type} (p : Proc σ) (h : p.credit = none) :
    p.canSend = true := by
  simp [Proc.canSend, h]

theorem progressUpdater_zero {σ : Type} (newFile : File) (hsize : newFile.size = 0)
    (updates : List (Int × Int)) (h : ∀ u ∈ updates, u.2 = 0) (p : Proc σ) :
    progressUpdater newFile updates p = (true, p) := by
  induction updates with
  | nil => rfl
  | cons u rest ih =>
    obtain ⟨current, total⟩ := u
    have h0 : total = 0 := h (current, total) (List.mem_cons_self _ _)
    subst h0
    unfold progressUpdater
    simp only [hsize, if_true, lt_self_iff_false, false_and, if_false]
    exact ih (fun u hu => h u (List.mem_cons_of_mem _ hu))

theorem uploadedChecksum_match {σ : Type} (targetGD : GDrive σ) (newFile dlFile : File)
    (p : Proc σ) (h : ChecksumsMatch targetGD newFile dlFile p.remote) :
    (uploadedChecksum targetGD newFile dlFile p).1 = Except.ok newFile.md5Checksum ∧
      p.Requested (uploadedChecksum targetGD newFile dlFile p).2 ∧
      (uploadedChecksum targetGD newFile dlFile p).2.remote =
        stateAfterChecksum targetGD dlFile p.remote := by
  unfold uploadedChecksum stateAfterChecksum
  rcases h with ⟨hne, heq⟩ | ⟨he, up, hup, heq⟩
  · simp only [hne, if_false]
    exact ⟨by rw [heq], Proc.Requested.refl p, trivial⟩
  · simp only [he, if_true, hup, heq]
    exact ⟨trivial, Proc.Requested.step _ _ _ _ (by rfl), rfl⟩

theorem progressUpdater_unbounded {σ : Type} (newFile : File) (updates : List (Int × Int))
    (p : Proc σ) (hc : p.credit = none) :
    (progressUpdater newFile updates p).1 = true ∧
      (progressUpdater newFile updates p).2.credit = none ∧
      (progressUpdater newFile updates p).2.remote = p.remote ∧
      ∃ t, (progressUpdater newFile updates p).2.trace = p.trace ++ t ∧
        ∀ x ∈ t, ∃ e, x = Step.send e ∧ e.done = false := by
  induction updates generalizing p with
  | nil => exact ⟨rfl, hc, rfl, [], by simp [progressUpdater], by simp⟩
  | cons u rest ih =>
    obtain ⟨current, total⟩ := u
    unfold progressUpdater
    simp only [canSend_of_credit_none p hc, if_true]
    generalize (if total = 0 then newFile.size else total) = tot
    by_cases hg : tot > 0 ∧ current > 0
    · simp only [hg, and_self, if_true]
      obtain ⟨h1, h2, h3, t, h4, h5⟩ := ih
        (p.send { code := ForProgress (Progress.ratio (wrapInt64 (current * 100)) tot) newFile none,
                  err := none, done := false }) (by simp [Proc.send, hc])
      refine ⟨h1, h2, h3,
        Step.send { code := ForProgress (Progress.ratio (wrapInt64 (current * 100)) tot) newFile none,
                    err := none, done := false } :: t, ?_, ?_⟩
      · rw [h4]; simp [Proc.send]
      · intro x hx
        rcases List.mem_cons.1 hx with rfl | hx
        · exact ⟨_, rfl, rfl⟩
        · exact h5 x hx
    · simp only [hg, if_false]
      exact ih p hc

theorem share_trace {σ : Type} (newFile dlFile : File) (owner : User) (rest : List User)
    (targetGD : GDrive σ) (p : Proc σ) (ho : newFile.owners = owner :: rest) :
    (share newFile (some dlFile) targetGD p).2.trace =
      p.trace ++ [Step.request targetGD.name (Request.permissionsCreate dlFile.id
        { type := "user", role := "reader", emailAddress := owner.emailAddress })] := by
  unfold share
  simp only [ho]
  split <;> [rfl; (split <;> rfl)]

theorem compareAndFinish_match {σ : Type} (gd targetGD : GDrive σ)
    (file newFile dlFile : File) (shareBack : Bool) (p : Proc σ) (hc : p.credit = none) :
    ∃ post, (compareAndFinish gd targetGD file newFile dlFile shareBack newFile.md5Checksum p).2.trace =
        p.trace ++ Step.send (successEvent newFile dlFile) ::
          Step.request gd.name (Request.filesDelete file.id) :: post ∧
      eventsOf post = [] ∧
      (shareBack = false ∨ (gd.srv.filesDelete file.id p.remote).1 ≠ none → post = []) ∧
      (∀ owner rest, shareBack = true → (gd.srv.filesDelete file.id p.remote).1 = none →
        newFile.owners = owner :: rest →
        post = [Step.request targetGD.name (Request.permissionsCreate dlFile.id
          { type := "user", role := "reader", emailAddress := owner.emailAddress })]) := by
  unfold compareAndFinish sendThen
  simp only [ne_eq, not_true_eq_false, if_false, canSend_of_credit_none p hc, if_true]
  have hr : (p.send (successEvent newFile dlFile)).remote = p.remote := rfl
  simp only [successEvent] at hr
  simp only [hr]
  cases hd : (gd.srv.filesDelete file.id p.remote).1 with
  | some e =>
    refine ⟨[], ?_, rfl, fun _ => rfl, ?_⟩
    · simp [successEvent, Proc.send, Proc.request]
    · intro o r _ h2; cases h2
  | none =>
    cases shareBack with
    | false =>
      refine ⟨[], ?_, rfl, fun _ => rfl, ?_⟩
      · simp [successEvent, Proc.send, Proc.request]
      · intro o r h; cases h
    | true =>
      cases ho : newFile.owners with
      | nil =>
        refine ⟨[], ?_, rfl, fun _ => rfl, ?_⟩
        · simp [successEvent, Proc.send, Proc.request, share, ho]
        · intro o r _ _ h; cases h
      | cons owner rest =>
        refine ⟨[Step.request targetGD.name (Request.permissionsCreate dlFile.id
          { type := "user", role := "reader", emailAddress := owner.emailAddress })], ?_, rfl, ?_, ?_⟩
        · simp only [successEvent, if_true]
          have := share_trace newFile dlFile owner rest targetGD
            ((p.send (successEvent newFile dlFile)).request gd.name (Request.filesDelete file.id)
              (gd.srv.filesDelete file.id p.remote).2) ho
          simp only [successEvent] at this
          split
          · next h => rw [h] at this; simpa [Proc.send, Proc.request] using this
          · next h => rw [h] at this; simpa [Proc.send, Proc.request] using this
        · intro h
          rcases h with h | h
          · cases h
          · exact absurd rfl h
        · intro o r _ _ h
          cases h
          rfl

theorem Transfer_reaches_compare {σ : Type} (gd targetGD : GDrive σ) (fuel : Nat)
    (file newFile dlFile : File) (shareBack : Bool) (s s1 s3 s4 : σ) (parents : List String)
    (p2 : Proc σ) (updates : List (Int × Int))
    (hget : gd.srv.filesGet file.id "*" s = (⟨some newFile, none⟩, s1))
    (hres : collectParents (createParentFolder gd targetGD fuel) newFile.parents []
        (({ remote := s } : Proc σ).request gd.name (Request.filesGet file.id "*") s1) =
      (Except.ok (none, parents), p2))
    (hdl : gd.srv.filesDownload file.id p2.remote = (⟨some (), none⟩, s3))
    (hup : targetGD.srv.filesCreateMedia
        { name := newFile.name, originalFilename := newFile.originalFilename, parents := parents }
        newFile.size s3 = ((updates, ⟨some dlFile, none⟩), s4))
    (hsum : ChecksumsMatch targetGD newFile dlFile s4) :
    p2.credit = none ∧ (∃ t, p2.trace = Step.request gd.name (Request.filesGet file.id "*") :: t ∧
        t.all Step.mirror = true) ∧
      Transfer gd targetGD fuel file shareBack { remote := s } =
        compareAndFinish gd targetGD file newFile dlFile shareBack newFile.md5Checksum
          (uploadedChecksum targetGD newFile dlFile
            (progressUpdater newFile updates
              ((p2.request gd.name (Request.filesDownload file.id) s3).request targetGD.name
                (Request.filesCreateMedia
                  { name := newFile.name, originalFilename := newFile.originalFilename,
                    parents := parents } newFile.size) s4)).2).2 := by
  have hreq := collectParents_requested (createParentFolder gd targetGD fuel)
    (createParentFolder_requested gd targetGD fuel) newFile.parents []
    (({ remote := s } : Proc σ).request gd.name (Request.filesGet file.id "*") s1)
  rw [hres] at hreq
  obtain ⟨hcred, t, ht, hm⟩ := hreq
  have hc2 : p2.credit = none := hcred
  refine ⟨hc2, ⟨t, by simpa [Proc.request] using ht, hm⟩, ?_⟩
  have hpu := progressUpdater_unbounded newFile updates
    ((p2.request gd.name (Request.filesDownload file.id) s3).request targetGD.name
      (Request.filesCreateMedia
        { name := newFile.name, originalFilename := newFile.originalFilename,
          parents := parents } newFile.size) s4) hc2
  obtain ⟨hb, _, hrem, _⟩ := hpu
  have hck := uploadedChecksum_match targetGD newFile dlFile
    (progressUpdater newFile updates
      ((p2.request gd.name (Request.filesDownload file.id) s3).request targetGD.name
        (Request.filesCreateMedia
          { name := newFile.name, originalFilename := newFile.originalFilename,
            parents := parents } newFile.size) s4)).2 (by rw [hrem]; exact hsum)
  unfold Transfer
  simp only [hget, hres, hdl]
  simp only [Proc.request] at hup ⊢
  simp only [hup]
  simp only [Proc.request] at hb hck
  obtain ⟨hck1, -, -⟩ := hck
  revert hb hck1
  generalize progressUpdater newFile updates _ = pu
  obtain ⟨b, p5⟩ := pu
  intro hb
  simp only at hb
  subst hb
  simp only
  generalize uploadedChecksum targetGD newFile dlFile p5 = uc
  obtain ⟨r, p6⟩ := uc
  intro hck1
  simp only at hck1
  subst hck1
  rfl

theorem mirror_not_share (x : Step) (h : x.mirror = true) :
    (∀ a id perm, x ≠ Step.request a (Request.permissionsCreate id perm)) ∧
      ∀ e, x ≠ Step.send e := by
  cases x with
  | send e => simp [Step.mirror] at h
  | request a r => cases r <;> simp [Step.mirror] at h ⊢

theorem Resolution.succeeded_spec (x : Resolution) (h : x.succeeded = true) :
    ∃ r, x.result = Except.ok r ∧ r.err = none := by
  unfold Resolution.succeeded at h
  split at h
  · next r hr => exact ⟨r, hr, by simpa using h⟩
  · cases h

theorem resolveEach_pids {σ : Type} (gd targetGD : GDrive σ) (fuel : Nat) (pids : List String)
    (p : Proc σ) : (resolveEach gd targetGD fuel pids p).map Resolution.pid = pids := by
  induction pids generalizing p with
  | nil => rfl
  | cons pid rest ih => simp [resolveEach, ih]

theorem collectParents_resolveEach {σ : Type} (gd targetGD : GDrive σ) (fuel : Nat)
    (pids acc : List String) (p : Proc σ)
    (h : ∀ x ∈ resolveEach gd targetGD fuel pids p, x.succeeded = true) :
    (collectParents (createParentFolder gd targetGD fuel) pids acc p).1 =
      Except.ok (none, acc ++ (resolveEach gd targetGD fuel pids p).filterMap Resolution.destId) := by
  induction pids generalizing acc p with
  | nil => simp [collectParents, resolveEach]
  | cons pid rest ih =>
    have h1 := Resolution.succeeded_spec _ (h _ (List.mem_cons_self _ _))
    have h2 : ∀ x ∈ resolveEach gd targetGD fuel rest (createParentFolder gd targetGD fuel pid p).2,
        x.succeeded = true := fun x hx => h x (List.mem_cons_of_mem _ hx)
    obtain ⟨r, hr, he⟩ := h1
    simp only at hr
    unfold collectParents
    simp only [resolveEach, List.filterMap_cons, Resolution.destId]
    rcases hc : createParentFolder gd targetGD fuel pid p with ⟨res, p1⟩
    rw [hc] at hr h2
    simp only at hr h2
    subst hr
    simp only [he]
    cases hv : r.val with
    | none => simpa using ih acc p1 h2
    | some f => simpa using ih (acc ++ [f.id]) p1 h2

theorem createParentFolder_root {σ : Type} (gd targetGD : GDrive σ) (fuel : Nat) (pid : String)
    (p : Proc σ)
    (hcreate : ∀ f s, (targetGD.srv.filesCreate f s).1.err = none →
      (targetGD.srv.filesCreate f s).1.val ≠ none)
    (r : Ret File) (hr : (createParentFolder gd targetGD fuel pid p).1 = Except.ok r)
    (he : r.err = none) :
    r.val = none ↔ ∃ parent, (GetFile gd pid p).1.val = some parent ∧ parent.name = "My Drive" := by
  cases fuel with
  | zero => simp [createParentFolder] at hr
  | succ n =>
    unfold createParentFolder at hr
    simp only at hr
    split at hr
    · simp at hr
    · next parent hp =>
      rw [hp]
      split at hr
      · next hroot =>
        simp only [Except.ok.injEq] at hr
        subst hr
        simp [hroot]
      · next hroot =>
        have hno : ¬ ∃ q, some parent = some q ∧ q.name = "My Drive" := by
          rintro ⟨q, hq, hn⟩
          cases hq
          exact hroot hn
        refine ⟨fun hv => ?_, fun hx => absurd hx hno⟩
        exfalso
        split at hr
        · simp at hr
        · split at hr
          · simp at hr
          · simp only [Except.ok.injEq] at hr
            subst hr
            simp at he
          · unfold findOrCreateFolder at hr
            simp only at hr
            split at hr
            · simp at hr
            · simp only [Except.ok.injEq] at hr
              subst hr
              simp at hv
            · simp only [Except.ok.injEq] at hr
              subst hr
              exact hcreate _ _ he hv

theorem resolveEach_root {σ : Type} (gd targetGD : GDrive σ) (fuel : Nat)
    (hcreate : ∀ f s, (targetGD.srv.filesCreate f s).1.err = none →
      (targetGD.srv.filesCreate f s).1.val ≠ none)
    (pids : List String) (p : Proc σ) :
    ∀ x ∈ resolveEach gd targetGD fuel pids p, x.succeeded = true →
      (x.destId = none ↔ x.isRoot = true) := by
  induction pids generalizing p with
  | nil => intro x hx; cases hx
  | cons pid rest ih =>
    intro x hx hs
    simp only [resolveEach, List.mem_cons] at hx
    rcases hx with rfl | hx
    · obtain ⟨r, hr, he⟩ := Resolution.succeeded_spec _ hs
      simp only at hr
      have := createParentFolder_root gd targetGD fuel pid p hcreate r hr he
      simp only [Resolution.destId, hr, Option.map_eq_none', Resolution.isRoot, this]
      constructor
      · rintro ⟨parent, hp, hn⟩
        simp [hp, hn]
      · intro h
        split at h
        · next parent hp => exact ⟨parent, hp, by simpa using h⟩
        · cases h
    · exact ih _ x hx hs

theorem length_filterMap_eq_filter {α β : Type} (f : α → Option β) (b : α → Bool) (l : List α)
    (h : ∀ x ∈ l, f x = none ↔ b x = true) :
    (l.filterMap f).length = (l.filter (fun x => !b x)).length := by
  induction l with
  | nil => rfl
  | cons x t ih =>
    have hx := h x (List.mem_cons_self _ _)
    have ht := ih (fun y hy => h y (List.mem_cons_of_mem _ hy))
    cases hb : b x with
    | true =>
      have : f x = none := hx.2 hb
      simp [List.filterMap_cons, this, hb, ht]
    | false =>
      cases hf : f x with
      | none => rw [hx.1 hf] at hb; cases hb
      | some y => simp [List.filterMap_cons, hf, hb, ht]

theorem progressUpdater_grows {σ : Type} (newFile : File) (updates : List (Int × Int))
    (p : Proc σ) : p.trace <+: (progressUpdater newFile updates p).2.trace := by
  induction updates generalizing p with
  | nil => exact List.prefix_refl _
  | cons u rest ih =>
    obtain ⟨current, total⟩ := u
    unfold progressUpdater
    simp only
    generalize (if total = 0 then newFile.size else total) = tot
    split
    · split
      · exact (List.prefix_append _ _).trans (ih (p.send _))
      · exact List.prefix_refl _
    · exact ih p

theorem sendThen_grows {σ : Type} (p : Proc σ) (e : ProgressResult)
    (rest : Proc σ → Exit × Proc σ) (h : ∀ q, q.trace <+: (rest q).2.trace) :
    p.trace <+: (sendThen p e rest).2.trace := by
  unfold sendThen
  split
  · exact (List.prefix_append _ _).trans (h (p.send e))
  · exact List.prefix_refl _

theorem share_grows {σ : Type} (newFile : File) (dlFile : Option File) (targetGD : GDrive σ)
    (p : Proc σ) : p.trace <+: (share newFile dlFile targetGD p).2.trace := by
  unfold share
  split
  · exact List.prefix_refl _
  · split
    · exact List.prefix_refl _
    · simp only
      split
      · exact List.prefix_append _ _
      · split <;> exact List.prefix_append _ _

theorem uploadedChecksum_grows {σ : Type} (targetGD : GDrive σ) (newFile dlFile : File)
    (p : Proc σ) : p.trace <+: (uploadedChecksum targetGD newFile dlFile p).2.trace := by
  unfold uploadedChecksum
  split
  · simp only
    split
    · split
      · exact (List.prefix_append _ _).trans (List.prefix_append _ _)
      · exact List.prefix_append _ _
    · split <;> exact List.prefix_append _ _
  · exact List.prefix_refl _

theorem compareAndFinish_grows {σ : Type} (gd targetGD : GDrive σ) (file newFile dlFile : File)
    (shareBack : Bool) (dlCheckSum : String) (p : Proc σ) :
    p.trace <+: (compareAndFinish gd targetGD file newFile dlFile shareBack dlCheckSum p).2.trace := by
  unfold compareAndFinish
  split
  · exact sendThen_grows _ _ _ (fun q => List.prefix_refl _)
  · refine sendThen_grows _ _ _ (fun q => ?_)
    simp only
    split
    · exact List.prefix_append _ _
    · split
      · have := share_grows newFile (some dlFile) targetGD
          (q.request gd.name (Request.filesDelete file.id) (gd.srv.filesDelete file.id q.remote).2)
        split
        · next h => rw [h] at this; exact (List.prefix_append _ _).trans this
        · next h => rw [h] at this; exact (List.prefix_append _ _).trans this
      · exact List.prefix_append _ _

theorem probeQuery_first (name first : String) (rest : List String) :
    probeQuery name (first :: rest) = probeQuery name [first] := rfl

theorem folderMatches_self (f : File) : folderMatches (probeQuery f.name f.parents) f = true := by
  unfold folderMatches
  cases hp : f.parents with
  | nil => simp
  | cons a t => simp [probeQuery_first]

theorem createdFresh_append (d a b : List File) (h1 : createdFresh d a = true)
    (h2 : createdFresh (d ++ a) b = true) : createdFresh d (a ++ b) = true := by
  induction a generalizing d with
  | nil => simpa using h2
  | cons c rest ih =>
    simp only [createdFresh, Bool.and_eq_true] at h1
    simp only [List.cons_append, createdFresh, Bool.and_eq_true]
    refine ⟨h1.1, ih _ h1.2 ?_⟩
    simpa using h2

theorem createdFresh_not_selected (d e : List File) (h : createdFresh d e = true)
    (c : File) (hc : c ∈ e) (x : File) (hx : x ∈ d) :
    folderMatches (probeQuery c.name c.parents) x = false := by
  induction e generalizing d with
  | nil => cases hc
  | cons y rest ih =>
    simp only [createdFresh, Bool.and_eq_true, List.isEmpty_iff] at h
    rcases List.mem_cons.1 hc with rfl | hc
    · have := List.filter_eq_nil_iff.1 h.1 x hx
      simpa using this
    · exact ih _ h.2 hc (List.mem_append_left _ hx)

theorem createdFresh_nodup (d e : List File) (h : createdFresh d e = true) :
    (e.map folderKey).Nodup := by
  induction e generalizing d with
  | nil => exact List.nodup_nil
  | cons c rest ih =>
    have h' := h
    simp only [createdFresh, Bool.and_eq_true] at h'
    rw [List.map_cons, List.nodup_cons]
    refine ⟨?_, ih _ h'.2⟩
    intro hmem
    obtain ⟨c', hc', hk⟩ := List.mem_map.1 hmem
    have hq : probeQuery c'.name c'.parents = probeQuery c.name c.parents := by
      simp only [folderKey, Prod.mk.injEq] at hk
      obtain ⟨hn, hh⟩ := hk
      rw [hn]
      cases h1 : c'.parents <;> cases h2 : c.parents <;> simp [h1, h2] at hh
      · rfl
      · rw [hh]; rfl
    have := createdFresh_not_selected _ _ h'.2 c' hc' c (by simp)
    rw [hq, folderMatches_self] at this
    cases this

theorem noCreate_append (a b : List Step) (ha : noCreate a = true) (hb : noCreate b = true) :
    noCreate (a ++ b) = true := by
  unfold noCreate at *
  rw [List.all_append, ha, hb]
  rfl

theorem Settled.pure {α : Type} (a : α) :
    Settled (fun p : Proc (List File) => (Except.ok a, p)) := by
  intro p r hr
  refine ⟨⟨[], by simp, rfl⟩, fun q later _ => ⟨hr, rfl, [], by simp, rfl⟩⟩

theorem Settled.andThen {α β : Type} {f : Proc (List File) → Except Exit α × Proc (List File)}
    {g : α → Proc (List File) → Except Exit β × Proc (List File)}
    (hf : Settled f) (hg : ∀ a, Settled (g a)) : Settled (andThen f g) := by
  intro p r hr
  unfold GdriveMover.andThen at hr ⊢
  rcases hfp : f p with ⟨res, p1⟩
  rw [hfp] at hr
  cases res with
  | error x => simp at hr
  | ok a =>
    simp only at hr
    have h1 := hf p a (by rw [hfp])
    rw [hfp] at h1
    obtain ⟨⟨e1, he1, hfr1⟩, hq1⟩ := h1
    simp only at he1 hq1
    obtain ⟨⟨e2, he2, hfr2⟩, hq2⟩ := hg a p1 r hr
    constructor
    · refine ⟨e1 ++ e2, ?_, ?_⟩
      · simp only; rw [he2, he1, List.append_assoc]
      · exact createdFresh_append _ _ _ hfr1 (by rw [← he1]; exact hfr2)
    · intro q later hq
      simp only at hq
      obtain ⟨hqa, hqr, t1, ht1, hn1⟩ := hq1 q (e2 ++ later) (by rw [hq, he2, List.append_assoc])
      rcases hfq : f q with ⟨resq, q1⟩
      rw [hfq] at hqa hqr ht1
      simp only at hqa hqr ht1
      subst hqa
      simp only
      obtain ⟨hga, hgr, t2, ht2, hn2⟩ := hq2 q1 later (by rw [hqr, hq])
      exact ⟨hga, hgr.trans hqr, t1 ++ t2, by rw [ht2, ht1, List.append_assoc],
        noCreate_append _ _ hn1 hn2⟩

theorem findOrCreateFolder_settled (newId : List File → File → String) (name : String)
    (parents : List String) : Settled (findOrCreateFolder (folderStore newId) name parents) := by
  intro p r hr
  unfold findOrCreateFolder at hr ⊢
  simp only [folderStore, idleService] at hr ⊢
  cases hf : List.filter (folderMatches (probeQuery name parents)) p.remote with
  | cons first rest =>
    simp only [hf, List.head?_cons, Proc.request] at hr ⊢
    refine ⟨⟨[], by simp, rfl⟩, fun q later hq => ?_⟩
    simp only [hq, List.filter_append, hf, List.cons_append, List.head?_cons]
    exact ⟨hr, trivial, _, rfl, rfl⟩
  | nil =>
    simp only [hf, List.head?_nil, Proc.request] at hr ⊢
    refine ⟨⟨_, rfl, ?_⟩, fun q later hq => ?_⟩
    · simp [createdFresh, hf]
    · have hm := folderMatches_self
        { name := name, mimeType := folderMimeType, parents := parents,
          id := newId p.remote { name := name, mimeType := folderMimeType, parents := parents } }
      simp only at hm
      simp only [hq, List.filter_append, hf, List.nil_append, List.filter_cons, hm, if_true,
        List.filter_nil, List.cons_append, List.head?_cons]
      exact ⟨hr, trivial, _, rfl, rfl⟩

theorem Settled.fail {α : Type} (f : Proc (List File) → Proc (List File)) (x : Exit) :
    Settled (fun p : Proc (List File) => ((Except.error x : Except Exit α), f p)) := by
  intro p r hr
  simp at hr

theorem Settled.request {α : Type} (a : α) (account : String) (r : Request)
    (h : (Step.request account r).isCreate = false) :
    Settled (fun p : Proc (List File) => (Except.ok a, p.request account r p.remote)) := by
  intro p v hv
  refine ⟨⟨[], by simp [Proc.request], rfl⟩, fun q later _ => ⟨hv, rfl, [Step.request account r], rfl, ?_⟩⟩
  simp [noCreate, h]

theorem collectParents_cons {σ : Type}
    (resolve : String → Proc σ → Except Exit (Ret File) × Proc σ) (pid : String)
    (rest acc : List String) :
    collectParents resolve (pid :: rest) acc =
      andThen (resolve pid) (fun r =>
        match r.err with
        | some e => fun p => (Except.ok (some e, acc), p)
        | none =>
          match r.val with
          | some f => collectParents resolve rest (acc ++ [f.id])
          | none => collectParents resolve rest acc) := by
  funext p
  unfold andThen
  rw [collectParents]
  rcases resolve pid p with ⟨res, p1⟩
  cases res with
  | error x => rfl
  | ok r =>
    obtain ⟨v, e⟩ := r
    cases e <;> cases v <;> rfl

theorem collectParents_settled (resolve : String → Proc (List File) → Except Exit (Ret File) × Proc (List File))
    (h : ∀ pid, Settled (resolve pid)) (pids acc : List String) :
    Settled (collectParents resolve pids acc) := by
  induction pids generalizing acc with
  | nil =>
    have : collectParents resolve [] acc = fun p => (Except.ok (none, acc), p) := by
      funext p; rfl
    rw [this]
    exact Settled.pure _
  | cons pid rest ih =>
    rw [collectParents_cons]
    refine Settled.andThen (h pid) (fun r => ?_)
    split
    · exact Settled.pure _
    · split
      · exact ih _
      · exact ih _

theorem createParentFolder_succ (metadata : String → File) (newId : List File → File → String)
    (fuel : Nat) (pid : String) :
    createParentFolder (folderSource metadata) (folderStore newId) (fuel + 1) pid =
      andThen (fun p => (Except.ok (), p.request "source" (Request.filesGet pid "*") p.remote))
        (fun _ =>
          if (metadata pid).name = "My Drive" then fun p => (Except.ok ⟨none, none⟩, p)
          else
            andThen
              (collectParents (createParentFolder (folderSource metadata) (folderStore newId) fuel)
                (metadata pid).parents [])
              (fun x =>
                match x with
                | (some e, _) => fun p => (Except.ok ⟨none, some e⟩, p)
                | (none, parents) =>
                  findOrCreateFolder (folderStore newId) (metadata pid).name parents)) := by
  funext p
  rw [createParentFolder]
  have hg : (folderSource metadata).srv.filesGet pid "*" p.remote =
      (⟨some (metadata pid), none⟩, p.remote) := rfl
  have hn : (folderSource metadata).name = "source" := rfl
  unfold andThen
  simp only [GetFile, hg, hn]
  split
  · rfl
  · simp only
    rcases collectParents (createParentFolder (folderSource metadata) (folderStore newId) fuel)
      (metadata pid).parents [] (p.request "source" (Request.filesGet pid "*") p.remote)
      with ⟨res, p2⟩
    cases res with
    | error x => rfl
    | ok x =>
      obtain ⟨oe, parents⟩ := x
      cases oe <;> rfl

theorem createParentFolder_settled (metadata : String → File) (newId : List File → File → String)
    (fuel : Nat) (pid : String) :
    Settled (createParentFolder (folderSource metadata) (folderStore newId) fuel pid) := by
  induction fuel generalizing pid with
  | zero =>
    have : createParentFolder (folderSource metadata) (folderStore newId) 0 pid =
        fun p => (Except.error Exit.outOfFuel, p) := by
      funext p; rfl
    rw [this]
    exact Settled.fail _ _
  | succ n ih =>
    rw [createParentFolder_succ]
    refine Settled.andThen (Settled.request _ _ _ rfl) (fun _ => ?_)
    split
    · exact Settled.pure _
    · refine Settled.andThen (collectParents_settled _ ih _ _) (fun x => ?_)
      split
      · exact Settled.pure _
      · exact findOrCreateFolder_settled _ _ _

theorem findOrCreateFolder_mem (newId : List File → File → String) (name : String)
    (parents : List String) (p : Proc (List File)) (f : File) (e : Option GoError)
    (h : (findOrCreateFolder (folderStore newId) name parents p).1 = Except.ok ⟨some f, e⟩) :
    f ∈ (findOrCreateFolder (folderStore newId) name parents p).2.remote := by
  unfold findOrCreateFolder at h ⊢
  simp only [folderStore, idleService] at h ⊢
  cases hf : List.filter (folderMatches (probeQuery name parents)) p.remote with
  | cons first rest =>
    simp only [hf, List.head?_cons, Proc.request, Except.ok.injEq, Ret.mk.injEq,
      Option.some.injEq] at h ⊢
    have hm : first ∈ List.filter (folderMatches (probeQuery name parents)) p.remote := by
      rw [hf]; exact List.mem_cons_self _ _
    rw [← h.1]
    exact (List.mem_filter.1 hm).1
  | nil =>
    simp only [hf, List.head?_nil, Proc.request, Except.ok.injEq, Ret.mk.injEq,
      Option.some.injEq] at h ⊢
    rw [← h.1]
    simp

theorem createParentFolder_mem (metadata : String → File) (newId : List File → File → String)
    (fuel : Nat) (pid : String) (p : Proc (List File)) (f : File) (e : Option GoError)
    (h : (createParentFolder (folderSource metadata) (folderStore newId) fuel pid p).1 =
      Except.ok ⟨some f, e⟩) :
    f ∈ (createParentFolder (folderSource metadata) (folderStore newId) fuel pid p).2.remote := by
  cases fuel with
  | zero => simp [createParentFolder] at h
  | succ n =>
    rw [createParentFolder_succ] at h ⊢
    by_cases hroot : (metadata pid).name = "My Drive"
    · simp [andThen, hroot] at h
    · simp only [andThen, hroot, if_false] at h ⊢
      rcases hc : collectParents (createParentFolder (folderSource metadata) (folderStore newId) n)
        (metadata pid).parents [] (p.request "source" (Request.filesGet pid "*") p.remote)
        with ⟨res, p2⟩
      rw [hc] at h
      cases res with
      | error x => simp at h
      | ok x =>
        obtain ⟨oe, parents⟩ := x
        cases oe with
        | some e' => simp at h
        | none =>
          simp only at h ⊢
          exact findOrCreateFolder_mem newId _ _ _ f e h

/-- For every remote, `share` with a nil destination file panics and issues
no request. -/
theorem share_without_destination_panics {σ : Type} (newFile : File) (targetGD : GDrive σ)
    (p : Proc σ) : share newFile none targetGD p = (Except.error Exit.panicked, p) := by
  unfold share
  cases newFile.owners <;> rfl

/-- For every remote, a get of the parent that returns a nil file makes
`createParentFolder` panic, whatever the error is. -/
theorem createParentFolder_panics_on_nil_parent {σ : Type} (gd targetGD : GDrive σ) (fuel : Nat)
    (pid : String) (p : Proc σ) (h : (gd.srv.filesGet pid "*" p.remote).1.val = none) :
    (createParentFolder gd targetGD (fuel + 1) pid p).1 = Except.error Exit.panicked := by
  rw [createParentFolder]
  simp only [GetFile, h]

/-- For every remote, a get of the parent that returns a file not called
"My Drive" together with an error makes `createParentFolder` end the process
through `log.Fatalf`. -/
theorem createParentFolder_fatal_on_error {σ : Type} (gd targetGD : GDrive σ) (fuel : Nat)
    (pid : String) (p : Proc σ) (parent : File) (e : GoError)
    (h : (gd.srv.filesGet pid "*" p.remote).1 = ⟨some parent, some e⟩)
    (hname : parent.name ≠ "My Drive") :
    (createParentFolder gd targetGD (fuel + 1) pid p).1 = Except.error Exit.fatal := by
  rw [createParentFolder]
  simp only [GetFile, h, hname, if_false]

/-- For every remote, `GetFilesInFolder` issues exactly one list request,
without a page token. -/
theorem GetFilesInFolder_one_request {σ : Type} (gd : GDrive σ) (folder : File) (p : Proc σ) :
    (GetFilesInFolder gd folder p).2.trace =
      p.trace ++ [Step.request gd.name
        (Request.filesList ("'" ++ folder.id ++ "' in parents") fileFields "")] := by
  unfold GetFilesInFolder
  simp only
  split
  · rfl
  · split <;> rfl

theorem requestsOf_append (a b : List Step) :
    requestsOf (a ++ b) = requestsOf a ++ requestsOf b := by
  induction a with
  | nil => rfl
  | cons x t ih => cases x <;> simp [requestsOf, ih]

/-- For every remote, when the compared checksums differ `Transfer` issues no
further request: the source is not deleted and nothing is shared. -/
theorem compareAndFinish_mismatch {σ : Type} (gd targetGD : GDrive σ)
    (file newFile dlFile : File) (shareBack : Bool) (dlCheckSum : String) (p : Proc σ)
    (h : dlCheckSum ≠ newFile.md5Checksum) :
    requestsOf (compareAndFinish gd targetGD file newFile dlFile shareBack dlCheckSum p).2.trace =
      requestsOf p.trace := by
  unfold compareAndFinish sendThen
  simp only [h, ne_eq, not_false_eq_true, if_true]
  split
  · simp [Proc.send, requestsOf_append, requestsOf]
  · rfl

/-- For every remote, the value of `dlCheckSum` that `Transfer` compares is
the checksum of the upload answer when that is not empty, the checksum of the
fetched metadata when the fetch succeeds, and the empty string when the fetch
fails. -/
theorem uploadedChecksum_value {σ : Type} (targetGD : GDrive σ) (newFile dlFile : File)
    (p : Proc σ) (c : String)
    (h : (uploadedChecksum targetGD newFile dlFile p).1 = Except.ok c) :
    (dlFile.md5Checksum ≠ "" ∧ c = dlFile.md5Checksum) ∨
      (dlFile.md5Checksum = "" ∧
        ((∃ uploadedFile, (targetGD.srv.filesGet dlFile.id "md5Checksum" p.remote).1 =
              ⟨some uploadedFile, none⟩ ∧ c = uploadedFile.md5Checksum) ∨
          (∃ e, (targetGD.srv.filesGet dlFile.id "md5Checksum" p.remote).1.err = some e ∧
              c = ""))) := by
  unfold uploadedChecksum at h
  by_cases h0 : dlFile.md5Checksum = ""
  · right
    refine ⟨h0, ?_⟩
    simp only [h0, if_true] at h
    rcases hg : (targetGD.srv.filesGet dlFile.id "md5Checksum" p.remote).1 with ⟨v, e⟩
    rw [hg] at h
    cases e with
    | some e =>
      right
      simp only at h
      split at h
      · exact ⟨e, rfl, by simpa using h.symm⟩
      · simp at h
    | none =>
      left
      cases v with
      | none => simp at h
      | some up => exact ⟨up, rfl, by simpa using h.symm⟩
  · left
    simp only [h0, if_false] at h
    exact ⟨h0, by simpa using h.symm⟩

/-! ## The claims -/

/-- Claim C1: the source is deleted although no checksum of the destination
was obtained.  The source file has an empty checksum, the upload answer
carries no checksum and the fetch of the uploaded file's checksum fails: the
body goes on after the fetch error, compares the empty strings and deletes the
source. -/
theorem Transfer_deletes_without_destination_checksum :
    (noChecksumTarget.srv.filesCreateMedia { name := "report" } 0 ()).1.2.val.map File.md5Checksum
        = some "" ∧
      (noChecksumTarget.srv.filesGet "new" "md5Checksum" ()).1 = ⟨none, some "backend error"⟩ ∧
      requestsOf (Transfer (sourceWithChecksum "") noChecksumTarget 1 reportFile false
          { remote := () }).2.trace =
        [("source", Request.filesGet "report" "*"), ("source", Request.filesDownload "report"),
         ("target", Request.filesCreateMedia { name := "report" } 0),
         ("target", Request.filesGet "new" "md5Checksum"),
         ("source", Request.filesDelete "report")] := by
  decide

/-- Claim C2: a folder transfer relays one event of each child.  For
`top/{sub/{inner}, sibling}` the events are the event of `inner`, the event of
`sibling` and the folder-complete event of `top`; the folder-complete event of
`sub`, which is the second event of the transfer of `sub`, is not relayed. -/
theorem TransferFolder_relays_first_event_only :
    eventsOf (TransferFolder treeSource treeTarget 3 subFolder false { remote := () }).2.trace =
        [{ code := { progress := Progress.value 100, fileId := "inner", fileName := "inner",
                     destFileId := "new", destFileName := "copy" }, err := none, done := true },
         folderComplete] ∧
      eventsOf (Transfer treeSource treeTarget 3 siblingFile false { remote := () }).2.trace =
        [{ code := { progress := Progress.value 100, fileId := "sibling", fileName := "sibling",
                     destFileId := "new", destFileName := "copy" }, err := none, done := true }] ∧
      eventsOf (TransferFolder treeSource treeTarget 3 topFolder false { remote := () }).2.trace =
        [{ code := { progress := Progress.value 100, fileId := "inner", fileName := "inner",
                     destFileId := "new", destFileName := "copy" }, err := none, done := true },
         { code := { progress := Progress.value 100, fileId := "sibling", fileName := "sibling",
                     destFileId := "new", destFileName := "copy" }, err := none, done := true },
         folderComplete] ∧
      eventsOf (TransferFolder treeSource treeTarget 3 topFolder false { remote := () }).2.trace ≠
        eventsOf (TransferFolder treeSource treeTarget 3 subFolder false { remote := () }).2.trace ++
          eventsOf (Transfer treeSource treeTarget 3 siblingFile false { remote := () }).2.trace ++
          [folderComplete] := by
  decide

/-- Claim C3: when the fetch of the uploaded file's checksum fails, the event
that carries the fetch error is followed by a second event with `Done=true`:
the body does not stop after the fetch error and compares the checksums. -/
theorem Transfer_two_terminal_events_after_fetch_failure :
    eventsOf (Transfer (sourceWithChecksum "c4ca") noChecksumTarget 1 reportFile true
        { remote := () }).2.trace =
      [{ code := { progress := Progress.value 100, fileId := "report", fileName := "report",
                   destFileId := "new", destFileName := "report.pdf" },
         err := some "backend error", done := true },
       { code := { progress := Progress.value 100, fileId := "report", fileName := "report",
                   destFileId := "new", destFileName := "report.pdf" },
         err := some (mismatchError { id := "new", name := "report.pdf" }), done := true }] := by
  decide

/-- Claim C4: `GetFilesInFolder` issues one list request, without a page token
and without asking for the continuation token, and returns the files of the
first page only: `b.txt`, which the remote holds on the second page, is not
returned. -/
theorem GetFilesInFolder_first_page_only :
    (GetFilesInFolder pagedSource topFolder { remote := () }).1 =
        Except.ok ([{ id := "a", name := "a.txt" }], none) ∧
      (GetFilesInFolder pagedSource topFolder { remote := () }).2.trace =
        [Step.request "source" (Request.filesList "'top' in parents" fileFields "")] ∧
      (pagedSource.srv.filesList "'top' in parents" fileFields "" ()).1.val.map FileList.nextPageToken
        = some "page2" ∧
      (pagedSource.srv.filesList "'top' in parents" fileFields "page2" ()).1.val.map FileList.files
        = some [{ id := "b", name := "b.txt" }] := by
  decide

/-- Claim C5: when the source-side get of a parent folder fails,
`createParentFolder` reads the name of the folder through the nil pointer and
the process panics: `Transfer` sends no event. -/
theorem Transfer_panics_when_parent_get_fails :
    (brokenParentSource.srv.filesGet "folder" "*" ()).1 = ⟨none, some "notFound"⟩ ∧
      (Transfer brokenParentSource plainTarget 5 reportFile false { remote := () }).1 =
        Exit.panicked ∧
      (Transfer brokenParentSource plainTarget 5 reportFile false { remote := () }).2.trace =
        [Step.request "source" (Request.filesGet "report" "*"),
         Step.request "source" (Request.filesGet "folder" "*")] := by
  decide

/-- Claim C6: with `shareBack` the folder transfer sends the folder-complete
event and then calls `share` with a nil destination file, which panics before
any create-permission request is issued. -/
theorem TransferFolder_shareBack_panics :
    TransferFolder treeSource plainTarget 2 ownedFolder true { remote := () } =
      (Exit.panicked,
        { remote := ()
          trace := [Step.request "source" (Request.filesList "'album' in parents" fileFields ""),
                    Step.send folderComplete] }) := by
  decide

/-- Claim C7, as stated, fails on a destination that lists the newest match
first.  The source folder `inner` and its parent `outer` are both called
`backup`.  The first call creates `m0` for `outer` and `m1` for `inner` under
`m0`.  In the second call the probe for `outer`, which has no mirrored parent
and so asks for the name only, answers with `m1` first; the probe for `inner`
under `m1` finds nothing and the folder `m2` is created. -/
theorem createParentFolder_second_call_creates :
    (createParentFolder (folderSource backupMetadata) (folderStack countingId) 3 "inner"
        { remote := [] }).2.remote =
        [{ id := "m1", name := "backup", mimeType := folderMimeType, parents := ["m0"] },
         { id := "m0", name := "backup", mimeType := folderMimeType }] ∧
      (createParentFolder (folderSource backupMetadata) (folderStack countingId) 3 "inner"
        { remote := (createParentFolder (folderSource backupMetadata) (folderStack countingId) 3
            "inner" { remote := [] }).2.remote }).2 =
        { remote :=
            [{ id := "m2", name := "backup", mimeType := folderMimeType, parents := ["m1"] },
             { id := "m1", name := "backup", mimeType := folderMimeType, parents := ["m0"] },
             { id := "m0", name := "backup", mimeType := folderMimeType }]
          trace :=
            [Step.request "source" (Request.filesGet "inner" "*"),
             Step.request "source" (Request.filesGet "outer" "*"),
             Step.request "source" (Request.filesGet "root" "*"),
             Step.request "target" (Request.filesList (probeQuery "backup" []) "files(id, name)" ""),
             Step.request "target" (Request.filesList (probeQuery "backup" ["m1"]) "files(id, name)" ""),
             Step.request "target" (Request.filesCreate
               { name := "backup", mimeType := folderMimeType, parents := ["m1"] })] } := by
  decide

/-- Claim C7, amended: over a destination that holds its folders in creation
order and answers a probe with the matching folders oldest first, with no
remote call failing, a call of `createParentFolder` that returns is followed
by a second call for the same source folder id that returns the same result,
leaves the destination as it is, issues no create request and returns a
folder that the destination held after the first call; the folders that the
first call created have pairwise different pairs of name and first parent. -/
theorem createParentFolder_idempotent (metadata : String → File)
    (newId : List File → File → String) (fuel : Nat) (pid : String) (d : List File) (r : Ret File)
    (hfirst : (createParentFolder (folderSource metadata) (folderStore newId) fuel pid
      { remote := d }).1 = Except.ok r) :
    (createParentFolder (folderSource metadata) (folderStore newId) fuel pid
        { remote := (createParentFolder (folderSource metadata) (folderStore newId) fuel pid
            { remote := d }).2.remote }).1 = Except.ok r ∧
      (createParentFolder (folderSource metadata) (folderStore newId) fuel pid
        { remote := (createParentFolder (folderSource metadata) (folderStore newId) fuel pid
            { remote := d }).2.remote }).2.remote =
        (createParentFolder (folderSource metadata) (folderStore newId) fuel pid
          { remote := d }).2.remote ∧
      noCreate (createParentFolder (folderSource metadata) (folderStore newId) fuel pid
        { remote := (createParentFolder (folderSource metadata) (folderStore newId) fuel pid
            { remote := d }).2.remote }).2.trace = true ∧
      (∀ f, r.val = some f →
        f ∈ (createParentFolder (folderSource metadata) (folderStore newId) fuel pid
          { remote := d }).2.remote) ∧
      ∃ created,
        (createParentFolder (folderSource metadata) (folderStore newId) fuel pid
          { remote := d }).2.remote = d ++ created ∧
        (created.map folderKey).Nodup := by
  obtain ⟨⟨created, hcr, hfresh⟩, hlater⟩ :=
    createParentFolder_settled metadata newId fuel pid { remote := d } r hfirst
  obtain ⟨h1, h2, t, ht, hn⟩ := hlater
    { remote := (createParentFolder (folderSource metadata) (folderStore newId) fuel pid
        { remote := d }).2.remote } [] (by simp)
  refine ⟨h1, h2, ?_, ?_, created, hcr, createdFresh_nodup _ _ hfresh⟩
  · rw [ht]; simpa using hn
  · intro f hf
    obtain ⟨v, e⟩ := r
    simp only at hf
    subst hf
    exact createParentFolder_mem metadata newId fuel pid _ f e hfirst

/-- Claim C7, amended, on the hierarchy `My Drive/docs/photos` and an empty
destination: the first call creates the mirrors of `docs` and `photos`. -/
theorem createParentFolder_idempotent_witness :
    (createParentFolder (folderSource photosMetadata) (folderStore mirrorId) 3 "photos"
        { remote := [] }).2.remote =
        [{ id := "m-docs", name := "docs", mimeType := folderMimeType },
         photosMirror] ∧
      ((createParentFolder (folderSource photosMetadata) (folderStore mirrorId) 3 "photos"
        { remote := (createParentFolder (folderSource photosMetadata) (folderStore mirrorId) 3 "photos"
            { remote := [] }).2.remote }).1 =
          Except.ok ⟨some photosMirror, none⟩ ∧
      (createParentFolder (folderSource photosMetadata) (folderStore mirrorId) 3 "photos"
        { remote := (createParentFolder (folderSource photosMetadata) (folderStore mirrorId) 3 "photos"
            { remote := [] }).2.remote }).2.remote =
        (createParentFolder (folderSource photosMetadata) (folderStore mirrorId) 3 "photos"
          { remote := [] }).2.remote ∧
      noCreate (createParentFolder (folderSource photosMetadata) (folderStore mirrorId) 3 "photos"
        { remote := (createParentFolder (folderSource photosMetadata) (folderStore mirrorId) 3 "photos"
            { remote := [] }).2.remote }).2.trace = true ∧
      (∀ f, (⟨some photosMirror, none⟩ : Ret File).val = some f →
        f ∈ (createParentFolder (folderSource photosMetadata) (folderStore mirrorId) 3 "photos"
          { remote := [] }).2.remote) ∧
      ∃ created,
        (createParentFolder (folderSource photosMetadata) (folderStore mirrorId) 3 "photos"
          { remote := [] }).2.remote = [] ++ created ∧
        (created.map folderKey).Nodup) :=
  ⟨by decide,
    createParentFolder_idempotent photosMetadata mirrorId 3 "photos" []
      ⟨some photosMirror, none⟩ (by decide)⟩

/-- Claim C8: when the metadata fetch, every resolver call for a parent of the
file and the download succeed (a create that returns no error returns the
folder), the upload request of `Transfer` carries as parents the ids of the
folders that the resolver returned, in the order of the source parents: one
id for each parent that the source does not report as the account root
"My Drive" and none for a parent that it does, so that the number of ids is
the number of parents that are not the root. -/
theorem Transfer_upload_parents {σ : Type} (gd targetGD : GDrive σ) (fuel : Nat)
    (file newFile : File) (shareBack : Bool) (s s1 s3 : σ)
    (hget : gd.srv.filesGet file.id "*" s = (⟨some newFile, none⟩, s1))
    (hcreate : ∀ f s, (targetGD.srv.filesCreate f s).1.err = none →
      (targetGD.srv.filesCreate f s).1.val ≠ none)
    (hall : ∀ x ∈ resolveEach gd targetGD fuel newFile.parents
        (({ remote := s } : Proc σ).request gd.name (Request.filesGet file.id "*") s1),
      x.succeeded = true)
    (hdl : gd.srv.filesDownload file.id
        (collectParents (createParentFolder gd targetGD fuel) newFile.parents []
          (({ remote := s } : Proc σ).request gd.name (Request.filesGet file.id "*") s1)).2.remote =
      (⟨some (), none⟩, s3)) :
    (resolveEach gd targetGD fuel newFile.parents
        (({ remote := s } : Proc σ).request gd.name (Request.filesGet file.id "*") s1)).map
        Resolution.pid = newFile.parents ∧
      (∀ x ∈ resolveEach gd targetGD fuel newFile.parents
          (({ remote := s } : Proc σ).request gd.name (Request.filesGet file.id "*") s1),
        x.destId = none ↔ x.isRoot = true) ∧
      ((resolveEach gd targetGD fuel newFile.parents
          (({ remote := s } : Proc σ).request gd.name (Request.filesGet file.id "*") s1)).filterMap
          Resolution.destId).length =
        ((resolveEach gd targetGD fuel newFile.parents
          (({ remote := s } : Proc σ).request gd.name (Request.filesGet file.id "*") s1)).filter
          (fun x => !x.isRoot)).length ∧
      ∃ pre post, (Transfer gd targetGD fuel file shareBack { remote := s }).2.trace =
          pre ++ Step.request targetGD.name (Request.filesCreateMedia
            { name := newFile.name, originalFilename := newFile.originalFilename,
              parents := (resolveEach gd targetGD fuel newFile.parents
                (({ remote := s } : Proc σ).request gd.name (Request.filesGet file.id "*") s1)).filterMap
                Resolution.destId }
            newFile.size) :: post ∧
        ∀ a f n, Step.request a (Request.filesCreateMedia f n) ∉ pre := by
  have hroot := fun x hx => resolveEach_root gd targetGD fuel hcreate newFile.parents
    (({ remote := s } : Proc σ).request gd.name (Request.filesGet file.id "*") s1) x hx (hall x hx)
  refine ⟨resolveEach_pids _ _ _ _ _, hroot, length_filterMap_eq_filter _ _ _ hroot, ?_⟩
  have hcp := collectParents_resolveEach gd targetGD fuel newFile.parents []
    (({ remote := s } : Proc σ).request gd.name (Request.filesGet file.id "*") s1) hall
  have hreq := collectParents_requested (createParentFolder gd targetGD fuel)
    (createParentFolder_requested gd targetGD fuel) newFile.parents []
    (({ remote := s } : Proc σ).request gd.name (Request.filesGet file.id "*") s1)
  revert hcp hreq hdl
  generalize (resolveEach gd targetGD fuel newFile.parents
    (({ remote := s } : Proc σ).request gd.name (Request.filesGet file.id "*") s1)).filterMap
    Resolution.destId = ids
  intro hdl hcp hreq
  rcases hc : collectParents (createParentFolder gd targetGD fuel) newFile.parents []
    (({ remote := s } : Proc σ).request gd.name (Request.filesGet file.id "*") s1) with ⟨res, p2⟩
  rw [hc] at hdl hcp hreq
  simp only [List.nil_append] at hcp hdl
  subst hcp
  obtain ⟨-, t, ht, hm⟩ := hreq
  simp only [Proc.request, List.nil_append] at ht
  unfold Transfer
  simp only [hget, hc, hdl]
  have hpre : ∀ (rest : Exit × Proc σ),
      ((p2.request gd.name (Request.filesDownload file.id) s3).request targetGD.name
        (Request.filesCreateMedia
          { name := newFile.name, originalFilename := newFile.originalFilename, parents := ids }
          newFile.size)
        (targetGD.srv.filesCreateMedia
          { name := newFile.name, originalFilename := newFile.originalFilename, parents := ids }
          newFile.size s3).2).trace <+: rest.2.trace →
      ∃ pre post, rest.2.trace = pre ++ Step.request targetGD.name (Request.filesCreateMedia
            { name := newFile.name, originalFilename := newFile.originalFilename, parents := ids }
            newFile.size) :: post ∧
        ∀ a f n, Step.request a (Request.filesCreateMedia f n) ∉ pre := by
    rintro rest ⟨post, hpost⟩
    refine ⟨p2.trace ++ [Step.request gd.name (Request.filesDownload file.id)], post, ?_, ?_⟩
    · rw [← hpost]; simp [Proc.request]
    · intro a f n hmem
      rw [ht] at hmem
      simp only [List.mem_append, List.mem_cons, List.mem_singleton, List.not_mem_nil,
        or_false] at hmem
      rcases hmem with (h | h) | h
      · cases h
      · have := List.all_eq_true.1 hm _ h
        simp [Step.mirror] at this
      · cases h
  apply hpre
  have hpu := progressUpdater_grows newFile
    (targetGD.srv.filesCreateMedia
      { name := newFile.name, originalFilename := newFile.originalFilename, parents := ids }
      newFile.size s3).1.1
    ((p2.request gd.name (Request.filesDownload file.id) s3).request targetGD.name
      (Request.filesCreateMedia
        { name := newFile.name, originalFilename := newFile.originalFilename, parents := ids }
        newFile.size)
      (targetGD.srv.filesCreateMedia
        { name := newFile.name, originalFilename := newFile.originalFilename, parents := ids }
        newFile.size s3).2)
  simp only [Proc.request] at hpu ⊢
  split
  · next h => rw [h] at hpu; exact hpu
  · next p5 h =>
    rw [h] at hpu
    split
    · exact hpu.trans (sendThen_grows _ _ _ (fun q => List.prefix_refl _))
    · split
      · exact hpu
      · next dlFile _ =>
        have huc := uploadedChecksum_grows targetGD newFile dlFile p5
        split
        · next h2 => rw [h2] at huc; exact hpu.trans huc
        · next h2 =>
          rw [h2] at huc
          exact (hpu.trans huc).trans (compareAndFinish_grows _ _ _ _ _ _ _ _)

/-- Claim C8 on a file with the parents `root` (the account root) and `docs`. -/
theorem Transfer_upload_parents_witness :
    (resolveEach mirrorSource mirrorTarget 2 ["root", "docs"]
        (({ remote := () } : Proc Unit).request "source" (Request.filesGet "report" "*") ())).map
        Resolution.pid = ["root", "docs"] ∧
      (∀ x ∈ resolveEach mirrorSource mirrorTarget 2 ["root", "docs"]
          (({ remote := () } : Proc Unit).request "source" (Request.filesGet "report" "*") ()),
        x.destId = none ↔ x.isRoot = true) ∧
      ((resolveEach mirrorSource mirrorTarget 2 ["root", "docs"]
          (({ remote := () } : Proc Unit).request "source" (Request.filesGet "report" "*") ())).filterMap
          Resolution.destId).length =
        ((resolveEach mirrorSource mirrorTarget 2 ["root", "docs"]
          (({ remote := () } : Proc Unit).request "source" (Request.filesGet "report" "*") ())).filter
          (fun x => !x.isRoot)).length ∧
      ∃ pre post, (Transfer mirrorSource mirrorTarget 2 reportFile false { remote := () }).2.trace =
          pre ++ Step.request "target" (Request.filesCreateMedia
            { name := "report.pdf", originalFilename := "",
              parents := (resolveEach mirrorSource mirrorTarget 2 ["root", "docs"]
                (({ remote := () } : Proc Unit).request "source" (Request.filesGet "report" "*") ())).filterMap
                Resolution.destId }
            0) :: post ∧
        ∀ a f n, Step.request a (Request.filesCreateMedia f n) ∉ pre :=
  Transfer_upload_parents mirrorSource mirrorTarget 2 reportFile
    { id := "report", name := "report.pdf", parents := ["root", "docs"], md5Checksum := "d41d",
      owners := [{ emailAddress := "owner@example.com" }] }
    false () () () (by decide) (fun _ _ _ h => by cases h) (by decide) (by decide)

/-- On the file with the parents `root` and `docs` the upload parents are the one
id of the mirror of `docs`. -/
theorem Transfer_upload_parents_example :
    (resolveEach mirrorSource mirrorTarget 2 ["root", "docs"]
        (({ remote := () } : Proc Unit).request "source" (Request.filesGet "report" "*") ())).filterMap
        Resolution.destId = ["mirror"] := by
  decide

/-- Claim C9: for a file of size 0 whose metadata fetch, parent resolution,
download and upload succeed with matching checksums, and progress reports
that all carry the total 0, `Transfer` sends exactly one event, the terminal
100% success event without error; no event holds a ratio with denominator 0;
and the delete request for the source id is the step that follows the
event. -/
theorem Transfer_zero_byte_file {σ : Type} (gd targetGD : GDrive σ) (fuel : Nat)
    (file newFile dlFile : File) (shareBack : Bool) (s s1 s3 s4 : σ) (parents : List String)
    (p2 : Proc σ) (updates : List (Int × Int))
    (hget : gd.srv.filesGet file.id "*" s = (⟨some newFile, none⟩, s1))
    (hsize : newFile.size = 0)
    (hres : collectParents (createParentFolder gd targetGD fuel) newFile.parents []
        (({ remote := s } : Proc σ).request gd.name (Request.filesGet file.id "*") s1) =
      (Except.ok (none, parents), p2))
    (hdl : gd.srv.filesDownload file.id p2.remote = (⟨some (), none⟩, s3))
    (hup : targetGD.srv.filesCreateMedia
        { name := newFile.name, originalFilename := newFile.originalFilename, parents := parents }
        newFile.size s3 = ((updates, ⟨some dlFile, none⟩), s4))
    (htotal : ∀ u ∈ updates, u.2 = 0)
    (hsum : ChecksumsMatch targetGD newFile dlFile s4) :
    eventsOf (Transfer gd targetGD fuel file shareBack { remote := s }).2.trace =
        [{ code := ForProgress (Progress.value 100) newFile (some dlFile), err := none, done := true }] ∧
      (∀ e ∈ eventsOf (Transfer gd targetGD fuel file shareBack { remote := s }).2.trace,
        ∀ num, e.code.progress ≠ Progress.ratio num 0) ∧
      ∃ pre post, (Transfer gd targetGD fuel file shareBack { remote := s }).2.trace =
          pre ++ Step.send (successEvent newFile dlFile) ::
            Step.request gd.name (Request.filesDelete file.id) :: post ∧
        eventsOf pre = [] ∧ eventsOf post = [] := by
  obtain ⟨hc2, ⟨t, ht, hm⟩, hT⟩ := Transfer_reaches_compare gd targetGD fuel file newFile dlFile
    shareBack s s1 s3 s4 parents p2 updates hget hres hdl hup hsum
  rw [hT, progressUpdater_zero newFile hsize updates htotal]
  have hck := uploadedChecksum_match targetGD newFile dlFile
    ((p2.request gd.name (Request.filesDownload file.id) s3).request targetGD.name
      (Request.filesCreateMedia
        { name := newFile.name, originalFilename := newFile.originalFilename,
          parents := parents } newFile.size) s4) hsum
  obtain ⟨-, ⟨hcc, tc, htc, hmc⟩, -⟩ := hck
  obtain ⟨post, hpost, hev, -, -⟩ := compareAndFinish_match gd targetGD file newFile dlFile shareBack
    (uploadedChecksum targetGD newFile dlFile
      ((p2.request gd.name (Request.filesDownload file.id) s3).request targetGD.name
        (Request.filesCreateMedia
          { name := newFile.name, originalFilename := newFile.originalFilename,
            parents := parents } newFile.size) s4)).2 (by rw [hcc]; exact hc2)
  have hpre : eventsOf (uploadedChecksum targetGD newFile dlFile
      ((p2.request gd.name (Request.filesDownload file.id) s3).request targetGD.name
        (Request.filesCreateMedia
          { name := newFile.name, originalFilename := newFile.originalFilename,
            parents := parents } newFile.size) s4)).2.trace = [] := by
    rw [htc, eventsOf_append, eventsOf_mirror tc hmc]
    simp only [Proc.request, ht, List.append_nil]
    simp [eventsOf, eventsOf_append, eventsOf_mirror t hm]
  have hall : eventsOf (compareAndFinish gd targetGD file newFile dlFile shareBack
      newFile.md5Checksum (uploadedChecksum targetGD newFile dlFile
      ((p2.request gd.name (Request.filesDownload file.id) s3).request targetGD.name
        (Request.filesCreateMedia
          { name := newFile.name, originalFilename := newFile.originalFilename,
            parents := parents } newFile.size) s4)).2).2.trace =
      [successEvent newFile dlFile] := by
    rw [hpost, eventsOf_append, hpre]
    simp [eventsOf, hev]
  refine ⟨hall, ?_, _, post, hpost, hpre, hev⟩
  rw [hall]
  intro e he num
  rw [List.mem_singleton.1 he]
  simp [successEvent, ForProgress]

/-- Claim C9 on a file of size 0 with the progress reports `(0, 0)` and `(7, 0)`. -/
theorem Transfer_zero_byte_file_witness :
    eventsOf (Transfer mirrorSource mirrorTarget 2 reportFile true { remote := () }).2.trace =
        [{ code := { progress := Progress.value 100, fileId := "report", fileName := "report.pdf",
                     destFileId := "new", destFileName := "report.pdf" },
           err := none, done := true }] ∧
      (∀ e ∈ eventsOf (Transfer mirrorSource mirrorTarget 2 reportFile true { remote := () }).2.trace,
        ∀ num, e.code.progress ≠ Progress.ratio num 0) ∧
      ∃ pre post, (Transfer mirrorSource mirrorTarget 2 reportFile true { remote := () }).2.trace =
          pre ++ Step.send
              (successEvent { id := "report", name := "report.pdf", parents := ["root", "docs"],
                              md5Checksum := "d41d", owners := [{ emailAddress := "owner@example.com" }] }
                { id := "new", name := "report.pdf", parents := ["mirror"], md5Checksum := "d41d" }) ::
            Step.request "source" (Request.filesDelete "report") :: post ∧
        eventsOf pre = [] ∧ eventsOf post = [] :=
  Transfer_zero_byte_file mirrorSource mirrorTarget 2 reportFile
    { id := "report", name := "report.pdf", parents := ["root", "docs"], md5Checksum := "d41d",
      owners := [{ emailAddress := "owner@example.com" }] }
    { id := "new", name := "report.pdf", parents := ["mirror"], md5Checksum := "d41d" }
    true () () () () ["mirror"]
    { remote := ()
      trace := [Step.request "source" (Request.filesGet "report" "*"),
                Step.request "source" (Request.filesGet "root" "*"),
                Step.request "source" (Request.filesGet "docs" "*"),
                Step.request "source" (Request.filesGet "root" "*"),
                Step.request "target" (Request.filesList (probeQuery "docs" []) "files(id, name)" ""),
                Step.request "target" (Request.filesCreate
                  { name := "docs", mimeType := folderMimeType })] }
    [(0, 0), (7, 0)] (by decide) (by decide) (by decide) (by decide) (by decide) (by decide)
    (Or.inl (by decide))

/-- Claim C10, as stated, fails when the delete of the source fails: the upload
succeeds, the checksums match, the file has an owner and `shareBack` is set,
the success event is sent, and the delete is the last request: no
create-permission request follows. -/
theorem Transfer_no_shareBack_when_delete_fails :
    eventsOf (Transfer undeletableSource treeTarget 1 reportFile true { remote := () }).2.trace =
        [{ code := { progress := Progress.value 100, fileId := "report", fileName := "report",
                     destFileId := "new", destFileName := "copy" }, err := none, done := true }] ∧
      (undeletableSource.srv.filesGet "report" "*" ()).1.val.map File.owners =
        some [{ emailAddress := "owner@example.com" }] ∧
      requestsOf (Transfer undeletableSource treeTarget 1 reportFile true { remote := () }).2.trace =
        [("source", Request.filesGet "report" "*"), ("source", Request.filesDownload "report"),
         ("target", Request.filesCreateMedia { name := "report" } 0),
         ("source", Request.filesDelete "report")] := by
  decide

/-- Claim C10, amended: with `shareBack` on a file that has an owner, when the
upload succeeds and the checksums match, the terminal 100% success event is
followed by the delete of the source and, exactly when that delete succeeds,
by one create-permission request for the new destination file id to the first
owner's email with role reader; before the success event there is no
create-permission request and no event with `Done=true`. -/
theorem Transfer_shareBack_after_delete {σ : Type} (gd targetGD : GDrive σ) (fuel : Nat)
    (file newFile dlFile : File) (owner : User) (owners : List User) (s s1 s3 s4 : σ)
    (parents : List String) (p2 : Proc σ) (updates : List (Int × Int))
    (hget : gd.srv.filesGet file.id "*" s = (⟨some newFile, none⟩, s1))
    (howner : newFile.owners = owner :: owners)
    (hres : collectParents (createParentFolder gd targetGD fuel) newFile.parents []
        (({ remote := s } : Proc σ).request gd.name (Request.filesGet file.id "*") s1) =
      (Except.ok (none, parents), p2))
    (hdl : gd.srv.filesDownload file.id p2.remote = (⟨some (), none⟩, s3))
    (hup : targetGD.srv.filesCreateMedia
        { name := newFile.name, originalFilename := newFile.originalFilename, parents := parents }
        newFile.size s3 = ((updates, ⟨some dlFile, none⟩), s4))
    (hsum : ChecksumsMatch targetGD newFile dlFile s4) :
    ∃ pre, (Transfer gd targetGD fuel file true { remote := s }).2.trace =
        pre ++ Step.send (successEvent newFile dlFile) ::
          Step.request gd.name (Request.filesDelete file.id) ::
          (if (gd.srv.filesDelete file.id (stateAfterChecksum targetGD dlFile s4)).1 = none then
            [shareRequest targetGD dlFile owner]
          else []) ∧
      (∀ a id perm, Step.request a (Request.permissionsCreate id perm) ∉ pre) ∧
      (∀ e, Step.send e ∈ pre → e.done = false) := by
  obtain ⟨hc2, ⟨t, ht, hm⟩, hT⟩ := Transfer_reaches_compare gd targetGD fuel file newFile dlFile
    true s s1 s3 s4 parents p2 updates hget hres hdl hup hsum
  rw [hT]
  obtain ⟨-, hpc, hpr, tp, htp, hsp⟩ := progressUpdater_unbounded newFile updates
    ((p2.request gd.name (Request.filesDownload file.id) s3).request targetGD.name
      (Request.filesCreateMedia
        { name := newFile.name, originalFilename := newFile.originalFilename,
          parents := parents } newFile.size) s4) hc2
  obtain ⟨-, ⟨hcc, tc, htc, hmc⟩, hrem⟩ := uploadedChecksum_match targetGD newFile dlFile
    (progressUpdater newFile updates
      ((p2.request gd.name (Request.filesDownload file.id) s3).request targetGD.name
        (Request.filesCreateMedia
          { name := newFile.name, originalFilename := newFile.originalFilename,
            parents := parents } newFile.size) s4)).2 (by rw [hpr]; exact hsum)
  obtain ⟨post, hpost, -, hnone, hsome⟩ := compareAndFinish_match gd targetGD file newFile dlFile true
    (uploadedChecksum targetGD newFile dlFile
      (progressUpdater newFile updates
        ((p2.request gd.name (Request.filesDownload file.id) s3).request targetGD.name
          (Request.filesCreateMedia
            { name := newFile.name, originalFilename := newFile.originalFilename,
              parents := parents } newFile.size) s4)).2).2 (by rw [hcc]; exact hpc)
  rw [hrem, hpr] at hnone hsome
  have hs4 : ((p2.request gd.name (Request.filesDownload file.id) s3).request targetGD.name
      (Request.filesCreateMedia
        { name := newFile.name, originalFilename := newFile.originalFilename,
          parents := parents } newFile.size) s4).remote = s4 := rfl
  rw [hs4] at hnone hsome
  have hpostEq : post =
      (if (gd.srv.filesDelete file.id (stateAfterChecksum targetGD dlFile s4)).1 = none then
        [shareRequest targetGD dlFile owner] else []) := by
    by_cases hd : (gd.srv.filesDelete file.id (stateAfterChecksum targetGD dlFile s4)).1 = none
    · rw [if_pos hd]; exact hsome owner owners rfl hd howner
    · rw [if_neg hd]; exact hnone (Or.inr hd)
  refine ⟨_, by rw [hpost, hpostEq], ?_, ?_⟩
  · intro a id perm hmem
    rw [htc, htp] at hmem
    simp only [Proc.request, ht, List.mem_append, List.mem_cons, List.mem_singleton,
      List.not_mem_nil, or_false] at hmem
    rcases hmem with (((h | h) | h) | h) | h
    · rcases h with h | h
      · cases h
      · exact (mirror_not_share _ (List.all_eq_true.1 hm _ h)).1 a id perm rfl
    · cases h
    · cases h
    · obtain ⟨e, he, -⟩ := hsp _ h; cases he
    · exact (mirror_not_share _ (List.all_eq_true.1 hmc _ h)).1 a id perm rfl
  · intro e hmem
    rw [htc, htp] at hmem
    simp only [Proc.request, ht, List.mem_append, List.mem_cons, List.mem_singleton,
      List.not_mem_nil, or_false] at hmem
    rcases hmem with (((h | h) | h) | h) | h
    · rcases h with h | h
      · cases h
      · exact absurd rfl ((mirror_not_share _ (List.all_eq_true.1 hm _ h)).2 e)
    · cases h
    · cases h
    · obtain ⟨e', he, hd⟩ := hsp _ h; cases he; exact hd
    · exact absurd rfl ((mirror_not_share _ (List.all_eq_true.1 hmc _ h)).2 e)

/-- Claim C10, amended, on a transfer whose delete succeeds: the trace ends with
the success event, the delete and the share request. -/
theorem Transfer_shareBack_after_delete_witness :
    ∃ pre, (Transfer mirrorSource mirrorTarget 2 reportFile true { remote := () }).2.trace =
        pre ++ Step.send
            (successEvent
              { id := "report", name := "report.pdf", parents := ["root", "docs"],
                md5Checksum := "d41d", owners := [{ emailAddress := "owner@example.com" }] }
              { id := "new", name := "report.pdf", parents := ["mirror"], md5Checksum := "d41d" }) ::
          Step.request "source" (Request.filesDelete "report") ::
          [Step.request "target" (Request.permissionsCreate "new"
            { type := "user", role := "reader", emailAddress := "owner@example.com" })] ∧
      (∀ a id perm, Step.request a (Request.permissionsCreate id perm) ∉ pre) ∧
      (∀ e, Step.send e ∈ pre → e.done = false) :=
  Transfer_shareBack_after_delete mirrorSource mirrorTarget 2 reportFile
    { id := "report", name := "report.pdf", parents := ["root", "docs"], md5Checksum := "d41d",
      owners := [{ emailAddress := "owner@example.com" }] }
    { id := "new", name := "report.pdf", parents := ["mirror"], md5Checksum := "d41d" }
    { emailAddress := "owner@example.com" } [] () () () () ["mirror"]
    { remote := ()
      trace := [Step.request "source" (Request.filesGet "report" "*"),
                Step.request "source" (Request.filesGet "root" "*"),
                Step.request "source" (Request.filesGet "docs" "*"),
                Step.request "source" (Request.filesGet "root" "*"),
                Step.request "target" (Request.filesList (probeQuery "docs" []) "files(id, name)" ""),
                Step.request "target" (Request.filesCreate
                  { name := "docs", mimeType := folderMimeType })] }
    [(0, 0), (7, 0)] (by decide) (by decide) (by decide) (by decide) (by decide)
    (Or.inl (by decide))

/-! ## Failure paths of `Transfer` -/

theorem mirror_not_upload (x : Step) (h : x.mirror = true) :
    (∀ a f n, x ≠ Step.request a (Request.filesCreateMedia f n)) ∧
      ∀ a id, x ≠ Step.request a (Request.filesDelete id) := by
  cases x with
  | send e => simp [Step.mirror] at h
  | request a r => cases r <;> simp [Step.mirror] at h ⊢

theorem eventsOf_sends (t : List Step) (h : ∀ x ∈ t, ∃ e, x = Step.send e ∧ e.done = false) :
    (∀ e ∈ eventsOf t, e.done = false) ∧ ∀ a r, Step.request a r ∉ t := by
  induction t with
  | nil => exact ⟨fun e he => (by cases he), fun a r hm => (by cases hm)⟩
  | cons x t ih =>
    obtain ⟨e, rfl, hd⟩ := h x (List.mem_cons_self _ _)
    obtain ⟨h1, h2⟩ := ih (fun y hy => h y (List.mem_cons_of_mem _ hy))
    refine ⟨fun e' he' => ?_, fun a r hm => ?_⟩
    · simp only [eventsOf, List.mem_cons] at he'
      rcases he' with rfl | he'
      · exact hd
      · exact h1 e' he'
    · rcases List.mem_cons.1 hm with hm | hm
      · cases hm
      · exact h2 a r hm

/-- The metadata fetch fails: one event with code -2 and the error, and the
get is the only request. -/
theorem Transfer_get_fails {σ : Type} (gd targetGD : GDrive σ) (fuel : Nat) (file : File)
    (shareBack : Bool) (s : σ) (e : GoError)
    (h : (gd.srv.filesGet file.id "*" s).1.err = some e) :
    (Transfer gd targetGD fuel file shareBack { remote := s }).2.trace =
      [Step.request gd.name (Request.filesGet file.id "*"),
       Step.send { code := ForCode (-2), err := some e, done := true }] := by
  unfold Transfer
  simp only [h, sendThen, Proc.request, Proc.canSend, if_true, Proc.send]
  rfl

/-- The parent resolution returns an error: the trace is the get, the steps
of the resolver and one event with code -2 and the error. -/
theorem Transfer_resolution_fails {σ : Type} (gd targetGD : GDrive σ) (fuel : Nat)
    (file newFile : File) (shareBack : Bool) (s s1 : σ) (e : GoError) (acc : List String)
    (p2 : Proc σ)
    (hget : gd.srv.filesGet file.id "*" s = (⟨some newFile, none⟩, s1))
    (hres : collectParents (createParentFolder gd targetGD fuel) newFile.parents []
        (({ remote := s } : Proc σ).request gd.name (Request.filesGet file.id "*") s1) =
      (Except.ok (some e, acc), p2)) :
    ∃ t, t.all Step.mirror = true ∧
      (Transfer gd targetGD fuel file shareBack { remote := s }).2.trace =
        Step.request gd.name (Request.filesGet file.id "*") :: t ++
          [Step.send { code := ForCode (-2), err := some e, done := true }] := by
  have hreq := collectParents_requested (createParentFolder gd targetGD fuel)
    (createParentFolder_requested gd targetGD fuel) newFile.parents []
    (({ remote := s } : Proc σ).request gd.name (Request.filesGet file.id "*") s1)
  rw [hres] at hreq
  obtain ⟨hcred, t, ht, hm⟩ := hreq
  have hc2 : p2.credit = none := hcred
  have ht2 : p2.trace = Step.request gd.name (Request.filesGet file.id "*") :: t := by
    simpa [Proc.request] using ht
  refine ⟨t, hm, ?_⟩
  unfold Transfer
  simp only [hget, hres, sendThen, canSend_of_credit_none p2 hc2, if_true, Proc.send, ht2,
    List.cons_append]

/-- The download fails: the trace is the get, the steps of the resolver, the
download request and one event with code -2 and the error. -/
theorem Transfer_download_fails {σ : Type} (gd targetGD : GDrive σ) (fuel : Nat)
    (file newFile : File) (shareBack : Bool) (s s1 : σ) (e : GoError) (parents : List String)
    (p2 : Proc σ)
    (hget : gd.srv.filesGet file.id "*" s = (⟨some newFile, none⟩, s1))
    (hres : collectParents (createParentFolder gd targetGD fuel) newFile.parents []
        (({ remote := s } : Proc σ).request gd.name (Request.filesGet file.id "*") s1) =
      (Except.ok (none, parents), p2))
    (hdl : (gd.srv.filesDownload file.id p2.remote).1.err = some e) :
    ∃ t, t.all Step.mirror = true ∧
      (Transfer gd targetGD fuel file shareBack { remote := s }).2.trace =
        Step.request gd.name (Request.filesGet file.id "*") :: t ++
          [Step.request gd.name (Request.filesDownload file.id),
           Step.send { code := ForCode (-2), err := some e, done := true }] := by
  have hreq := collectParents_requested (createParentFolder gd targetGD fuel)
    (createParentFolder_requested gd targetGD fuel) newFile.parents []
    (({ remote := s } : Proc σ).request gd.name (Request.filesGet file.id "*") s1)
  rw [hres] at hreq
  obtain ⟨hcred, t, ht, hm⟩ := hreq
  have hc2 : p2.credit = none := hcred
  have ht2 : p2.trace = Step.request gd.name (Request.filesGet file.id "*") :: t := by
    simpa [Proc.request] using ht
  refine ⟨t, hm, ?_⟩
  have hcs : (p2.request gd.name (Request.filesDownload file.id)
      (gd.srv.filesDownload file.id p2.remote).2).canSend = true :=
    canSend_of_credit_none _ hc2
  unfold Transfer
  simp only [hget, hres, hdl, sendThen, hcs, if_true]
  simp only [Proc.send, Proc.request, ht2]
  simp

/-- The upload fails: the trace is the get, the steps of the resolver, the
download and upload requests, the progress events and one event with code 0
and the error. -/
theorem Transfer_upload_fails {σ : Type} (gd targetGD : GDrive σ) (fuel : Nat)
    (file newFile : File) (shareBack : Bool) (s s1 s3 s4 : σ) (e : GoError)
    (parents : List String) (p2 : Proc σ) (updates : List (Int × Int)) (v : Option File)
    (hget : gd.srv.filesGet file.id "*" s = (⟨some newFile, none⟩, s1))
    (hres : collectParents (createParentFolder gd targetGD fuel) newFile.parents []
        (({ remote := s } : Proc σ).request gd.name (Request.filesGet file.id "*") s1) =
      (Except.ok (none, parents), p2))
    (hdl : gd.srv.filesDownload file.id p2.remote = (⟨some (), none⟩, s3))
    (hup : targetGD.srv.filesCreateMedia
        { name := newFile.name, originalFilename := newFile.originalFilename, parents := parents }
        newFile.size s3 = ((updates, ⟨v, some e⟩), s4)) :
    ∃ t sends, t.all Step.mirror = true ∧
      (∀ x ∈ sends, ∃ ev, x = Step.send ev ∧ ev.done = false) ∧
      (Transfer gd targetGD fuel file shareBack { remote := s }).2.trace =
        Step.request gd.name (Request.filesGet file.id "*") :: t ++
          [Step.request gd.name (Request.filesDownload file.id),
           Step.request targetGD.name (Request.filesCreateMedia
             { name := newFile.name, originalFilename := newFile.originalFilename,
               parents := parents } newFile.size)] ++ sends ++
          [Step.send { code := ForCode 0, err := some e, done := true }] := by
  have hreq := collectParents_requested (createParentFolder gd targetGD fuel)
    (createParentFolder_requested gd targetGD fuel) newFile.parents []
    (({ remote := s } : Proc σ).request gd.name (Request.filesGet file.id "*") s1)
  rw [hres] at hreq
  obtain ⟨hcred, t, ht, hm⟩ := hreq
  have hc2 : p2.credit = none := hcred
  have ht2 : p2.trace = Step.request gd.name (Request.filesGet file.id "*") :: t := by
    simpa [Proc.request] using ht
  obtain ⟨hb, hpc, -, sends, hsends, hall⟩ := progressUpdater_unbounded newFile updates
    ((p2.request gd.name (Request.filesDownload file.id) s3).request targetGD.name
      (Request.filesCreateMedia
        { name := newFile.name, originalFilename := newFile.originalFilename,
          parents := parents } newFile.size) s4) hc2
  refine ⟨t, sends, hm, hall, ?_⟩
  unfold Transfer
  simp only [hget, hres, hdl]
  simp only [Proc.request] at hup hb hpc hsends ⊢
  simp only [hup]
  revert hb hpc hsends
  generalize progressUpdater newFile updates _ = pu
  obtain ⟨b, p5⟩ := pu
  intro hb hpc hsends
  simp only at hb hpc hsends
  subst hb
  simp only [sendThen, canSend_of_credit_none p5 hpc, if_true, Proc.send, hsends, ht2]
  simp

/-- Claim C11: for every run of `Transfer` and every remote.  If the upload
fails, the events are progress events without `Done` followed by one event
whose progress value is 0 and whose file fields are empty (`ForCode(0)`), with
the upload error and `Done=true`, and no delete and no create-permission
request is issued.  If the metadata fetch fails, the parent
resolution returns an error or the download fails, exactly one event is sent,
with progress value -2 and empty file fields (`ForCode(-2)`), that error and
`Done=true`, and no upload request is issued. -/
theorem Transfer_failure_events {σ : Type} (gd targetGD : GDrive σ) (fuel : Nat) (file : File)
    (shareBack : Bool) (s : σ) :
    (∀ (newFile : File) (s1 s3 s4 : σ) (parents : List String) (p2 : Proc σ)
        (updates : List (Int × Int)) (v : Option File) (e : GoError),
      gd.srv.filesGet file.id "*" s = (⟨some newFile, none⟩, s1) →
      collectParents (createParentFolder gd targetGD fuel) newFile.parents []
          (({ remote := s } : Proc σ).request gd.name (Request.filesGet file.id "*") s1) =
        (Except.ok (none, parents), p2) →
      gd.srv.filesDownload file.id p2.remote = (⟨some (), none⟩, s3) →
      targetGD.srv.filesCreateMedia
          { name := newFile.name, originalFilename := newFile.originalFilename, parents := parents }
          newFile.size s3 = ((updates, ⟨v, some e⟩), s4) →
      ∃ progress,
        eventsOf (Transfer gd targetGD fuel file shareBack { remote := s }).2.trace =
          progress ++ [{ code := { progress := Progress.value 0, fileId := "", fileName := "",
                                   destFileId := "", destFileName := "" },
                         err := some e, done := true }] ∧
        (∀ x ∈ progress, x.done = false) ∧
        (∀ a id, Step.request a (Request.filesDelete id) ∉
          (Transfer gd targetGD fuel file shareBack { remote := s }).2.trace) ∧
        (∀ a id perm, Step.request a (Request.permissionsCreate id perm) ∉
          (Transfer gd targetGD fuel file shareBack { remote := s }).2.trace)) ∧
      (∀ (e : GoError),
        (gd.srv.filesGet file.id "*" s).1.err = some e →
        eventsOf (Transfer gd targetGD fuel file shareBack { remote := s }).2.trace =
          [{ code := { progress := Progress.value (-2), fileId := "", fileName := "",
                       destFileId := "", destFileName := "" },
             err := some e, done := true }] ∧
        (∀ a f n, Step.request a (Request.filesCreateMedia f n) ∉
          (Transfer gd targetGD fuel file shareBack { remote := s }).2.trace)) ∧
      (∀ (newFile : File) (s1 : σ) (acc : List String) (p2 : Proc σ) (e : GoError),
        gd.srv.filesGet file.id "*" s = (⟨some newFile, none⟩, s1) →
        collectParents (createParentFolder gd targetGD fuel) newFile.parents []
            (({ remote := s } : Proc σ).request gd.name (Request.filesGet file.id "*") s1) =
          (Except.ok (some e, acc), p2) →
        eventsOf (Transfer gd targetGD fuel file shareBack { remote := s }).2.trace =
          [{ code := { progress := Progress.value (-2), fileId := "", fileName := "",
                       destFileId := "", destFileName := "" },
             err := some e, done := true }] ∧
        (∀ a f n, Step.request a (Request.filesCreateMedia f n) ∉
          (Transfer gd targetGD fuel file shareBack { remote := s }).2.trace)) ∧
      (∀ (newFile : File) (s1 : σ) (parents : List String) (p2 : Proc σ) (e : GoError),
        gd.srv.filesGet file.id "*" s = (⟨some newFile, none⟩, s1) →
        collectParents (createParentFolder gd targetGD fuel) newFile.parents []
            (({ remote := s } : Proc σ).request gd.name (Request.filesGet file.id "*") s1) =
          (Except.ok (none, parents), p2) →
        (gd.srv.filesDownload file.id p2.remote).1.err = some e →
        eventsOf (Transfer gd targetGD fuel file shareBack { remote := s }).2.trace =
          [{ code := { progress := Progress.value (-2), fileId := "", fileName := "",
                       destFileId := "", destFileName := "" },
             err := some e, done := true }] ∧
        (∀ a f n, Step.request a (Request.filesCreateMedia f n) ∉
          (Transfer gd targetGD fuel file shareBack { remote := s }).2.trace)) := by
  refine ⟨?_, ?_, ?_, ?_⟩
  · intro newFile s1 s3 s4 parents p2 updates v e hget hres hdl hup
    obtain ⟨t, sends, hm, hsends, htr⟩ := Transfer_upload_fails gd targetGD fuel file newFile
      shareBack s s1 s3 s4 e parents p2 updates v hget hres hdl hup
    obtain ⟨hdone, hnoreq⟩ := eventsOf_sends sends hsends
    rw [htr]
    refine ⟨eventsOf sends, ?_, hdone, ?_, ?_⟩
    · simp [eventsOf_append, eventsOf, eventsOf_mirror t hm, ForCode]
    · intro a id hmem
      simp only [List.cons_append, List.mem_cons, List.mem_append, List.mem_singleton,
        List.not_mem_nil, or_false] at hmem
      rcases hmem with h | ((h | h | h) | h) | h
      · cases h
      · exact (mirror_not_upload _ (List.all_eq_true.1 hm _ h)).2 a id rfl
      · cases h
      · cases h
      · exact hnoreq _ _ h
      · cases h
    · intro a id perm hmem
      simp only [List.cons_append, List.mem_cons, List.mem_append, List.mem_singleton,
        List.not_mem_nil, or_false] at hmem
      rcases hmem with h | ((h | h | h) | h) | h
      · cases h
      · exact (mirror_not_share _ (List.all_eq_true.1 hm _ h)).1 a id perm rfl
      · cases h
      · cases h
      · exact hnoreq _ _ h
      · cases h
  · intro e h
    rw [Transfer_get_fails gd targetGD fuel file shareBack s e h]
    refine ⟨rfl, ?_⟩
    intro a f n hmem
    simp at hmem
  · intro newFile s1 acc p2 e hget hres
    obtain ⟨t, hm, htr⟩ := Transfer_resolution_fails gd targetGD fuel file newFile shareBack
      s s1 e acc p2 hget hres
    rw [htr]
    refine ⟨?_, ?_⟩
    · simp [eventsOf_append, eventsOf, eventsOf_mirror t hm, ForCode]
    · intro a f n hmem
      simp only [List.cons_append, List.mem_cons, List.mem_append, List.mem_singleton,
        List.not_mem_nil, or_false] at hmem
      rcases hmem with h | h | h
      · cases h
      · exact (mirror_not_upload _ (List.all_eq_true.1 hm _ h)).1 a f n rfl
      · cases h
  · intro newFile s1 parents p2 e hget hres hdl
    obtain ⟨t, hm, htr⟩ := Transfer_download_fails gd targetGD fuel file newFile shareBack
      s s1 e parents p2 hget hres hdl
    rw [htr]
    refine ⟨?_, ?_⟩
    · simp [eventsOf_append, eventsOf, eventsOf_mirror t hm, ForCode]
    · intro a f n hmem
      simp only [List.cons_append, List.mem_cons, List.mem_append, List.mem_singleton,
        List.not_mem_nil, or_false] at hmem
      rcases hmem with h | h | h | h
      · cases h
      · exact (mirror_not_upload _ (List.all_eq_true.1 hm _ h)).1 a f n rfl
      · cases h
      · cases h

/-- Claim C11 on four runs: an upload that reports progress and fails, a
metadata fetch that fails, a folder create that fails during the parent
resolution, and a download that fails. -/
theorem Transfer_failure_events_witness :
    (∃ progress,
        eventsOf (Transfer mirrorSource brokenUploadTarget 2 reportFile true { remote := () }).2.trace =
          progress ++ [{ code := { progress := Progress.value 0, fileId := "", fileName := "",
                                   destFileId := "", destFileName := "" },
                         err := some "connection reset", done := true }] ∧
        (∀ x ∈ progress, x.done = false) ∧
        (∀ a id, Step.request a (Request.filesDelete id) ∉
          (Transfer mirrorSource brokenUploadTarget 2 reportFile true { remote := () }).2.trace) ∧
        (∀ a id perm, Step.request a (Request.permissionsCreate id perm) ∉
          (Transfer mirrorSource brokenUploadTarget 2 reportFile true { remote := () }).2.trace)) ∧
      (eventsOf (Transfer brokenParentSource plainTarget 2 missingFile true { remote := () }).2.trace =
          [{ code := { progress := Progress.value (-2), fileId := "", fileName := "",
                       destFileId := "", destFileName := "" },
             err := some "notFound", done := true }] ∧
        (∀ a f n, Step.request a (Request.filesCreateMedia f n) ∉
          (Transfer brokenParentSource plainTarget 2 missingFile true { remote := () }).2.trace)) ∧
      (eventsOf (Transfer mirrorSource fullTarget 2 reportFile true { remote := () }).2.trace =
          [{ code := { progress := Progress.value (-2), fileId := "", fileName := "",
                       destFileId := "", destFileName := "" },
             err := some "storageQuotaExceeded", done := true }] ∧
        (∀ a f n, Step.request a (Request.filesCreateMedia f n) ∉
          (Transfer mirrorSource fullTarget 2 reportFile true { remote := () }).2.trace)) ∧
      (eventsOf (Transfer unreadableSource mirrorTarget 2 reportFile true { remote := () }).2.trace =
          [{ code := { progress := Progress.value (-2), fileId := "", fileName := "",
                       destFileId := "", destFileName := "" },
             err := some "forbidden", done := true }] ∧
        (∀ a f n, Step.request a (Request.filesCreateMedia f n) ∉
          (Transfer unreadableSource mirrorTarget 2 reportFile true { remote := () }).2.trace)) :=
  ⟨(Transfer_failure_events mirrorSource brokenUploadTarget 2 reportFile true ()).1
      reportMetadata () () () ["mirror"] { remote := (), trace := reportResolution } [(5, 10)]
      none "connection reset" (by decide) (by decide) (by decide) (by decide),
    (Transfer_failure_events brokenParentSource plainTarget 2 missingFile true ()).2.1
      "notFound" (by decide),
    (Transfer_failure_events mirrorSource fullTarget 2 reportFile true ()).2.2.1
      reportMetadata () [] { remote := (), trace := reportResolution } "storageQuotaExceeded"
      (by decide) (by decide),
    (Transfer_failure_events unreadableSource mirrorTarget 2 reportFile true ()).2.2.2
      reportMetadata () ["mirror"] { remote := (), trace := reportResolution } "forbidden"
      (by decide) (by decide) (by decide)⟩

/-- The events of the run whose upload fails: one progress event, then the
event with code 0. -/
theorem Transfer_failure_events_example :
    eventsOf (Transfer mirrorSource brokenUploadTarget 2 reportFile true { remote := () }).2.trace =
      [{ code := { progress := Progress.ratio 500 10, fileId := "report", fileName := "report.pdf",
                   destFileId := "", destFileName := "" },
         err := none, done := false },
       { code := { progress := Progress.value 0, fileId := "", fileName := "",
                   destFileId := "", destFileName := "" },
         err := some "connection reset", done := true }] := by
  decide

end GdriveMover
